import Mathlib

/-!
Verification of the taipy-core cycle/scenario lifecycle manager.

The definitions below are a shallow embedding of the Python sources
`taipy/core/cycle/_cycle_manager.py` and
`taipy/core/scenario/_scenario_manager.py`.  Calendar arithmetic embeds the
relevant behaviour of Python's `datetime.date`, `datetime.timedelta` and
`calendar.monthrange`.  External collaborators that are part of the
repository but whose sources are not available (the Pipeline Manager, the
entity classes and the repository layer) are modelled from the spec where
indicated.
-/

namespace TaipyCore

/-! ## Calendar arithmetic (embedding of datetime.date / calendar) -/

/-- Embedding of `calendar.isleap`. -/
def isleap (y : Nat) : Bool := y % 4 == 0 && (y % 100 != 0 || y % 400 == 0)

/-- Number of days of month `m` of year `y`; embedding of
`calendar.monthrange(y, m)[1]`. -/
def days_in_month (y : Nat) (m : Nat) : Nat :=
  if m = 2 then (if isleap y then 29 else 28)
  else if m = 4 ∨ m = 6 ∨ m = 9 ∨ m = 11 then 30
  else 31

/-- Days in year `y` before month `m`, as in Python's date implementation. -/
def days_before_month (y : Nat) (m : Nat) : Nat :=
  (match m with
   | 1 => 0 | 2 => 31 | 3 => 59 | 4 => 90 | 5 => 120 | 6 => 151
   | 7 => 181 | 8 => 212 | 9 => 243 | 10 => 273 | 11 => 304 | _ => 334)
  + (if 2 < m ∧ isleap y then 1 else 0)

/-- Number of days before January 1 of year `y` (proleptic Gregorian),
as in Python's date implementation. -/
def days_before_year (y : Nat) : Nat :=
  365 * (y - 1) + (y - 1) / 4 - (y - 1) / 100 + (y - 1) / 400

/-- A calendar date, mirroring the fields of `datetime.date`. -/
structure Date where
  year : Nat
  month : Nat
  day : Nat
deriving DecidableEq, Repr

/-- Embedding of `datetime.date.toordinal` (day 1 is 0001-01-01). -/
def Date.toordinal (d : Date) : Nat :=
  days_before_year d.year + days_before_month d.year d.month + d.day

/-- Embedding of `datetime.date.weekday` (Monday is 0). -/
def Date.weekday (d : Date) : Nat := (d.toordinal + 6) % 7

/-- The dates representable by `datetime.date` have month and day in range
(years are bounded by 9999 in Python; the calendar arithmetic itself is
uniform in the year, which we keep unbounded above). -/
def Date.Valid (d : Date) : Prop :=
  1 ≤ d.year ∧ 1 ≤ d.month ∧ d.month ≤ 12 ∧ 1 ≤ d.day ∧
    d.day ≤ days_in_month d.year d.month

instance (d : Date) : Decidable d.Valid := by
  unfold Date.Valid; exact inferInstance

/-- Calendar successor of a date (the effect of adding `timedelta(days=1)`). -/
def next_day (d : Date) : Date :=
  if d.day < days_in_month d.year d.month then ⟨d.year, d.month, d.day + 1⟩
  else if d.month < 12 then ⟨d.year, d.month + 1, 1⟩
  else ⟨d.year + 1, 1, 1⟩

/-- Calendar predecessor of a date (the effect of subtracting
`timedelta(days=1)`). -/
def prev_day (d : Date) : Date :=
  if 1 < d.day then ⟨d.year, d.month, d.day - 1⟩
  else if 1 < d.month then ⟨d.year, d.month - 1, days_in_month d.year (d.month - 1)⟩
  else ⟨d.year - 1, 12, 31⟩

/-- Adding `timedelta(days=n)` to a date. -/
def add_days (d : Date) (n : Nat) : Date := next_day^[n] d

/-- Subtracting `timedelta(days=n)` from a date. -/
def sub_days (d : Date) (n : Nat) : Date := prev_day^[n] d

lemma one_le_days_in_month (y m : Nat) : 1 ≤ days_in_month y m := by
  unfold days_in_month; split_ifs <;> omega

lemma days_in_month_le (y m : Nat) : days_in_month y m ≤ 31 := by
  unfold days_in_month; split_ifs <;> omega

lemma isleap_iff (y : Nat) :
    isleap y = true ↔ (y % 4 = 0 ∧ (y % 100 ≠ 0 ∨ y % 400 = 0)) := by
  simp [isleap]

lemma days_before_month_succ (y m : Nat) (h1 : 1 ≤ m) (h2 : m ≤ 11) :
    days_before_month y (m + 1) = days_before_month y m + days_in_month y m := by
  rcases Bool.eq_false_or_eq_true (isleap y) with hl | hl <;>
    (interval_cases m <;>
      (unfold days_before_month days_in_month; rw [hl]; norm_num))

set_option maxHeartbeats 1000000 in
lemma days_before_year_succ (y : Nat) (h : 1 ≤ y) :
    days_before_year (y + 1)
      = days_before_year y + 365 + (if isleap y then 1 else 0) := by
  unfold days_before_year
  by_cases hl : isleap y = true
  · rw [if_pos hl, isleap_iff] at *
    omega
  · rw [if_neg hl]
    rw [isleap_iff] at hl
    omega

lemma toordinal_pos (d : Date) (h : d.Valid) : 1 ≤ d.toordinal := by
  obtain ⟨_, _, _, h4, _⟩ := h
  unfold Date.toordinal; omega

lemma mk_valid_iff (a b c : Nat) :
    (Date.mk a b c).Valid ↔
      (1 ≤ a ∧ 1 ≤ b ∧ b ≤ 12 ∧ 1 ≤ c ∧ c ≤ days_in_month a b) :=
  Iff.rfl

lemma mk_toordinal (a b c : Nat) :
    (Date.mk a b c).toordinal = days_before_year a + days_before_month a b + c :=
  rfl

lemma days_before_month_one (y : Nat) : days_before_month y 1 = 0 := by
  unfold days_before_month; norm_num

lemma days_before_month_twelve (y : Nat) :
    days_before_month y 12 = 334 + (if isleap y then 1 else 0) := by
  unfold days_before_month; norm_num

lemma days_in_month_twelve (y : Nat) : days_in_month y 12 = 31 := by
  unfold days_in_month; norm_num

lemma next_day_valid (d : Date) (h : d.Valid) : (next_day d).Valid := by
  obtain ⟨h1, h2, h3, h4, h5⟩ := h
  unfold next_day
  split_ifs with hd hm
  · rw [mk_valid_iff]
    exact ⟨h1, h2, h3, by omega, by omega⟩
  · rw [mk_valid_iff]
    exact ⟨h1, by omega, by omega, by omega, one_le_days_in_month _ _⟩
  · rw [mk_valid_iff]
    exact ⟨by omega, by omega, by omega, by omega,
      le_trans (by omega) (one_le_days_in_month _ _)⟩

lemma toordinal_next_day (d : Date) (h : d.Valid) :
    (next_day d).toordinal = d.toordinal + 1 := by
  obtain ⟨h1, h2, h3, h4, h5⟩ := h
  unfold next_day
  split_ifs with hd hm
  · rw [mk_toordinal]; unfold Date.toordinal; omega
  · have hday : d.day = days_in_month d.year d.month := by omega
    have hb := days_before_month_succ d.year d.month h2 (by omega)
    rw [mk_toordinal]; unfold Date.toordinal; omega
  · have hm12 : d.month = 12 := by omega
    have hday : d.day = 31 := by
      have h31 : days_in_month d.year d.month = 31 := by
        rw [hm12, days_in_month_twelve]
      omega
    have hy := days_before_year_succ d.year h1
    have h334 := days_before_month_twelve d.year
    rw [mk_toordinal, days_before_month_one]
    unfold Date.toordinal
    rw [hm12, hday, h334]
    split_ifs at * <;> omega

lemma prev_day_spec (d : Date) (h : d.Valid) (h2 : 2 ≤ d.toordinal) :
    (prev_day d).Valid ∧ (prev_day d).toordinal + 1 = d.toordinal := by
  obtain ⟨hy, hm1, hm2, hd1, hd2⟩ := h
  unfold prev_day
  split_ifs with hdd hmm
  · rw [mk_valid_iff, mk_toordinal]
    refine ⟨⟨hy, hm1, hm2, by omega, by omega⟩, ?_⟩
    unfold Date.toordinal; omega
  · have hd : d.day = 1 := by omega
    rw [mk_valid_iff, mk_toordinal]
    refine ⟨⟨hy, by omega, by omega, one_le_days_in_month _ _, le_refl _⟩, ?_⟩
    have hb := days_before_month_succ d.year (d.month - 1) (by omega) (by omega)
    have hmd : d.month - 1 + 1 = d.month := by omega
    rw [hmd] at hb
    unfold Date.toordinal
    rw [hd]
    omega
  · have hd : d.day = 1 := by omega
    have hm : d.month = 1 := by omega
    have hy2 : 2 ≤ d.year := by
      by_contra hc
      have hy1 : d.year = 1 := by omega
      have ht : d.toordinal = 1 := by
        unfold Date.toordinal days_before_year
        rw [hy1, hm, hd, days_before_month_one]
      omega
    have hsucc := days_before_year_succ (d.year - 1) (by omega)
    have hyy : d.year - 1 + 1 = d.year := by omega
    rw [hyy] at hsucc
    rw [mk_valid_iff, mk_toordinal]
    refine ⟨⟨by omega, by omega, by omega, by omega, ?_⟩, ?_⟩
    · rw [days_in_month_twelve]
    · have h334 := days_before_month_twelve (d.year - 1)
      unfold Date.toordinal
      rw [hm, hd, days_before_month_one, h334]
      split_ifs at * <;> omega

lemma add_days_spec (d : Date) (n : Nat) (h : d.Valid) :
    (add_days d n).Valid ∧ (add_days d n).toordinal = d.toordinal + n := by
  induction n with
  | zero => exact ⟨h, rfl⟩
  | succ k ih =>
    have hk : add_days d (k + 1) = next_day (add_days d k) := by
      simp [add_days, Function.iterate_succ_apply']
    obtain ⟨hv, ho⟩ := ih
    rw [hk]
    exact ⟨next_day_valid _ hv, by rw [toordinal_next_day _ hv, ho]; omega⟩

lemma sub_days_spec (d : Date) (n : Nat) (h : d.Valid) (hn : n < d.toordinal) :
    (sub_days d n).Valid ∧ (sub_days d n).toordinal + n = d.toordinal := by
  induction n with
  | zero => exact ⟨h, rfl⟩
  | succ k ih =>
    obtain ⟨hv, ho⟩ := ih (by omega)
    have hk : sub_days d (k + 1) = prev_day (sub_days d k) := by
      simp [sub_days, Function.iterate_succ_apply']
    obtain ⟨hv', ho'⟩ := prev_day_spec (sub_days d k) hv (by omega)
    rw [hk]
    exact ⟨hv', by omega⟩

/-! ## Date-times (embedding of datetime.datetime at microsecond precision) -/

/-- Microseconds per day. -/
def micros_per_day : Nat := 86400000000

/-- A date-time: a calendar date plus a time of day in microseconds. -/
structure DateTime where
  date : Date
  micro : Nat
deriving DecidableEq, Repr

/-- Validity of a date-time. -/
def DateTime.Valid (t : DateTime) : Prop :=
  t.date.Valid ∧ t.micro < micros_per_day

instance (t : DateTime) : Decidable t.Valid := by
  unfold DateTime.Valid; exact inferInstance

/-- Total microseconds of a date-time (for comparing instants). -/
def DateTime.tomicro (t : DateTime) : Nat :=
  t.date.toordinal * micros_per_day + t.micro

/-- Effect of subtracting `timedelta(microseconds=1)` from a date-time. -/
def sub_one_micro (t : DateTime) : DateTime :=
  if t.micro = 0 then ⟨prev_day t.date, micros_per_day - 1⟩
  else ⟨t.date, t.micro - 1⟩

/-! ## Cycle manager bucket computation
(embedding of taipy/core/cycle/_cycle_manager.py) -/

/-- Embedding of taipy.core.common.frequency.Frequency. -/
inductive Frequency where
  | DAILY | WEEKLY | MONTHLY | YEARLY
deriving DecidableEq, Repr

/-- Embedding of CycleManager._get_start_date_of_cycle: truncate the creation
instant to its date, adjust the date per frequency, and combine with time
zero. -/
def get_start_date_of_cycle (frequency : Frequency) (creation_date : DateTime) :
    DateTime :=
  let start_date := creation_date.date
  let start_date :=
    match frequency with
    | .DAILY => start_date
    | .WEEKLY => sub_days start_date start_date.weekday
    | .MONTHLY => { start_date with day := 1 }
    | .YEARLY => { start_date with month := 1, day := 1 }
  ⟨start_date, 0⟩

/-- Embedding of CycleManager._get_end_date_of_cycle: advance the start to the
next bucket's start per frequency, then subtract one microsecond. -/
def get_end_date_of_cycle (frequency : Frequency) (start_date : DateTime) :
    DateTime :=
  let end_date :=
    match frequency with
    | .DAILY => { start_date with date := add_days start_date.date 1 }
    | .WEEKLY =>
        { start_date with
          date := add_days start_date.date (7 - start_date.date.weekday) }
    | .MONTHLY =>
        { start_date with
          date := add_days
            { start_date.date with
              day := days_in_month start_date.date.year start_date.date.month }
            1 }
    | .YEARLY =>
        { start_date with
          date := add_days { start_date.date with month := 12, day := 31 } 1 }
  sub_one_micro end_date

lemma weekday_lt (d : Date) : d.weekday < 7 := Nat.mod_lt _ (by omega)

lemma weekday_le_pred_toordinal (d : Date) (h : d.Valid) :
    d.weekday < d.toordinal := by
  have h1 := toordinal_pos d h
  unfold Date.weekday
  omega

lemma weekly_start_spec (d : Date) (h : d.Valid) :
    (sub_days d d.weekday).Valid ∧
      (sub_days d d.weekday).toordinal + d.weekday = d.toordinal ∧
      (sub_days d d.weekday).weekday = 0 := by
  obtain ⟨hv, ho⟩ := sub_days_spec d d.weekday h (weekday_le_pred_toordinal d h)
  refine ⟨hv, ho, ?_⟩
  have hw := weekday_lt d
  unfold Date.weekday at *
  omega

/-! ## Spec-side expected values for bucket boundaries (claim C8) -/

/-- Expected bucket length in days, following the spec wording: one day,
seven days, the actual number of days of the month, or the actual number of
days of the year (leap years included). -/
def spec_bucket_length (frequency : Frequency) (d : Date) : Nat :=
  match frequency with
  | .DAILY => 1
  | .WEEKLY => 7
  | .MONTHLY => days_in_month d.year d.month
  | .YEARLY => if isleap d.year then 366 else 365

/-- First day of the calendar month after the month of `d`, per the spec. -/
def spec_next_month_first (d : Date) : Date :=
  if d.month < 12 then ⟨d.year, d.month + 1, 1⟩ else ⟨d.year + 1, 1, 1⟩

lemma add_days_one (d : Date) : add_days d 1 = next_day d := by
  simp [add_days]

lemma tomicro_mk (d : Date) (m : Nat) :
    (DateTime.mk d m).tomicro = d.toordinal * micros_per_day + m := rfl

lemma sub_one_micro_zero (d : Date) :
    sub_one_micro ⟨d, 0⟩ = ⟨prev_day d, micros_per_day - 1⟩ := by
  simp [sub_one_micro]

lemma end_bucket_micro (d : Date) (n : Nat) (hv : d.Valid) (hn : 1 ≤ n) :
    (sub_one_micro ⟨add_days d n, 0⟩).tomicro + 1
      = (d.toordinal + n) * micros_per_day := by
  obtain ⟨hv', ho'⟩ := add_days_spec d n hv
  have h1 := toordinal_pos d hv
  obtain ⟨hpv, hpo⟩ := prev_day_spec _ hv' (by omega)
  rw [sub_one_micro_zero, tomicro_mk]
  unfold micros_per_day at *
  omega

lemma next_day_month_last (y m : Nat) :
    next_day ⟨y, m, days_in_month y m⟩
      = if m < 12 then Date.mk y (m + 1) 1 else Date.mk (y + 1) 1 1 := by
  simp [next_day]

lemma next_day_dec31 (y : Nat) : next_day ⟨y, 12, 31⟩ = ⟨y + 1, 1, 1⟩ := by
  simp [next_day, days_in_month]

lemma end_bucket_eq (d start : Date) (n L : Nat) (hv : d.Valid) (hn : 1 ≤ n)
    (hord : d.toordinal + n = start.toordinal + L) :
    (sub_one_micro ⟨add_days d n, 0⟩).tomicro + 1
      = (DateTime.mk start 0).tomicro + L * micros_per_day := by
  have he := end_bucket_micro d n hv hn
  rw [he, hord, tomicro_mk]
  ring

/-- The conjunction of bucket-boundary properties asserted by claim C8, for a
creation instant `t`. -/
def C8Prop (t : DateTime) : Prop :=
  get_start_date_of_cycle .DAILY t = ⟨t.date, 0⟩
  ∧ (get_start_date_of_cycle .WEEKLY t).micro = 0
  ∧ (get_start_date_of_cycle .WEEKLY t).date.Valid
  ∧ (get_start_date_of_cycle .WEEKLY t).date.weekday = 0
  ∧ (get_start_date_of_cycle .WEEKLY t).date.toordinal + t.date.weekday
      = t.date.toordinal
  ∧ get_start_date_of_cycle .MONTHLY t = ⟨⟨t.date.year, t.date.month, 1⟩, 0⟩
  ∧ get_start_date_of_cycle .YEARLY t = ⟨⟨t.date.year, 1, 1⟩, 0⟩
  ∧ (∀ f, (get_end_date_of_cycle f (get_start_date_of_cycle f t)).tomicro + 1
        = (get_start_date_of_cycle f t).tomicro
          + spec_bucket_length f t.date * micros_per_day)
  ∧ get_end_date_of_cycle .DAILY (get_start_date_of_cycle .DAILY t)
      = sub_one_micro ⟨next_day t.date, 0⟩
  ∧ get_end_date_of_cycle .WEEKLY (get_start_date_of_cycle .WEEKLY t)
      = sub_one_micro ⟨add_days (get_start_date_of_cycle .WEEKLY t).date 7, 0⟩
  ∧ get_end_date_of_cycle .MONTHLY (get_start_date_of_cycle .MONTHLY t)
      = sub_one_micro ⟨spec_next_month_first t.date, 0⟩
  ∧ get_end_date_of_cycle .YEARLY (get_start_date_of_cycle .YEARLY t)
      = sub_one_micro ⟨⟨t.date.year + 1, 1, 1⟩, 0⟩

/-- C8: the computed bucket start is the calendar date at time zero (DAILY),
the Monday of the week at time zero (WEEKLY), the first of the month at time
zero (MONTHLY), January 1 at time zero (YEARLY); the computed bucket end is
exactly one microsecond before the next bucket's start, with month and year
lengths taken from the actual calendar; and a WEEKLY cycle created on
Wednesday 2021-06-09 spans Monday 2021-06-07 00:00 to Sunday 2021-06-13
23:59:59.999999. -/
theorem C8_bucket_computation (t : DateTime) (h : t.Valid) :
    C8Prop t
    ∧ get_start_date_of_cycle .WEEKLY ⟨⟨2021, 6, 9⟩, 43200000000⟩
        = ⟨⟨2021, 6, 7⟩, 0⟩
    ∧ get_end_date_of_cycle .WEEKLY ⟨⟨2021, 6, 7⟩, 0⟩
        = ⟨⟨2021, 6, 13⟩, 86399999999⟩ := by
  have hdv : t.date.Valid := h.1
  obtain ⟨hy, hm1, hm2, hd1, hd2⟩ := hdv
  have hdv : t.date.Valid := h.1
  obtain ⟨hwv, hwo, hww⟩ := weekly_start_spec t.date hdv
  have hmv : (Date.mk t.date.year t.date.month
      (days_in_month t.date.year t.date.month)).Valid := by
    rw [mk_valid_iff]
    exact ⟨hy, hm1, hm2, one_le_days_in_month _ _, le_refl _⟩
  have hyv : (Date.mk t.date.year 12 31).Valid := by
    rw [mk_valid_iff, days_in_month_twelve]
    exact ⟨hy, by omega, by omega, by omega, by omega⟩
  have h7 : 7 - (sub_days t.date t.date.weekday).weekday = 7 := by
    rw [hww]
  refine ⟨⟨rfl, rfl, hwv, hww, hwo, rfl, rfl, ?_, ?_, ?_, ?_, ?_⟩,
    by decide, by decide⟩
  · intro f
    cases f
    · show (sub_one_micro ⟨add_days t.date 1, 0⟩).tomicro + 1
          = (DateTime.mk t.date 0).tomicro + 1 * micros_per_day
      exact end_bucket_eq t.date t.date 1 1 hdv (by omega) (by omega)
    · show (sub_one_micro ⟨add_days (sub_days t.date t.date.weekday)
            (7 - (sub_days t.date t.date.weekday).weekday), 0⟩).tomicro + 1
          = (DateTime.mk (sub_days t.date t.date.weekday) 0).tomicro
            + 7 * micros_per_day
      rw [h7]
      exact end_bucket_eq _ _ 7 7 hwv (by omega) (by omega)
    · show (sub_one_micro ⟨add_days ⟨t.date.year, t.date.month,
            days_in_month t.date.year t.date.month⟩ 1, 0⟩).tomicro + 1
          = (DateTime.mk ⟨t.date.year, t.date.month, 1⟩ 0).tomicro
            + days_in_month t.date.year t.date.month * micros_per_day
      refine end_bucket_eq _ _ 1 _ hmv (by omega) ?_
      rw [mk_toordinal, mk_toordinal]
      have h1d := one_le_days_in_month t.date.year t.date.month
      omega
    · show (sub_one_micro ⟨add_days ⟨t.date.year, 12, 31⟩ 1, 0⟩).tomicro + 1
          = (DateTime.mk ⟨t.date.year, 1, 1⟩ 0).tomicro
            + (if isleap t.date.year then 366 else 365) * micros_per_day
      refine end_bucket_eq _ _ 1 _ hyv (by omega) ?_
      rw [mk_toordinal, mk_toordinal, days_before_month_twelve,
        days_before_month_one]
      split_ifs <;> omega
  · show sub_one_micro ⟨add_days t.date 1, 0⟩ = sub_one_micro ⟨next_day t.date, 0⟩
    rw [add_days_one]
  · show sub_one_micro ⟨add_days (sub_days t.date t.date.weekday)
        (7 - (sub_days t.date t.date.weekday).weekday), 0⟩
      = sub_one_micro ⟨add_days (sub_days t.date t.date.weekday) 7, 0⟩
    rw [h7]
  · show sub_one_micro ⟨add_days ⟨t.date.year, t.date.month,
        days_in_month t.date.year t.date.month⟩ 1, 0⟩
      = sub_one_micro ⟨spec_next_month_first t.date, 0⟩
    rw [add_days_one, next_day_month_last]
    unfold spec_next_month_first
    rfl
  · show sub_one_micro ⟨add_days ⟨t.date.year, 12, 31⟩ 1, 0⟩
      = sub_one_micro ⟨⟨t.date.year + 1, 1, 1⟩, 0⟩
    rw [add_days_one, next_day_dec31]

/-- Witness for C8 at the concrete instant 2021-06-09 12:00. -/
theorem C8_bucket_computation_wit :
    (DateTime.mk ⟨2021, 6, 9⟩ 43200000000).Valid
    ∧ (C8Prop ⟨⟨2021, 6, 9⟩, 43200000000⟩
       ∧ get_start_date_of_cycle .WEEKLY ⟨⟨2021, 6, 9⟩, 43200000000⟩
           = ⟨⟨2021, 6, 7⟩, 0⟩
       ∧ get_end_date_of_cycle .WEEKLY ⟨⟨2021, 6, 7⟩, 0⟩
           = ⟨⟨2021, 6, 13⟩, 86399999999⟩) :=
  ⟨by decide, C8_bucket_computation ⟨⟨2021, 6, 9⟩, 43200000000⟩ (by decide)⟩

/-! ## Entities and persisted state

Scenario, Cycle and Pipeline entity classes are part of the repository but
outside the provided sources; their claim-relevant fields and methods are
modelled from the spec (section 3, Data Model).  Identities are natural
numbers drawn from a single fresh-id counter; the persistence layer
(spec section 6: get/set/delete/searchAll per entity type) is modelled as
in-memory lists. -/

/-- Modelled from the spec: a Pipeline is an external entity owned via its
`parent_id` field (equal to the owning scenario's id, or to the pipeline's
own id for scenario-independent pipelines). -/
structure Pipeline where
  id : Nat
  config_id : String
  parent_id : Nat
deriving DecidableEq, Repr

/-- Modelled from the spec: a Cycle has a frequency, a creation date and the
computed closed-open bucket boundaries. -/
structure Cycle where
  id : Nat
  frequency : Frequency
  creation_date : DateTime
  start_date : DateTime
  end_date : DateTime
deriving DecidableEq, Repr

/-- Modelled from the spec: a Scenario references its configuration, owns
pipelines, may reference a cycle (by identity — a weak reference), and
carries the master flag, a set of tags, the `authorized_tags` property and
an ordered sequence of subscribers (callbacks are opaque identifiers). -/
structure Scenario where
  id : Nat
  config_id : String
  pipelines : List Pipeline
  authorized_tags : List String
  creation_date : DateTime
  is_master : Bool
  cycle : Option Nat
  tags : List String
  subscribers : List Nat
deriving DecidableEq, Repr

/-- Modelled from the spec: Scenario.has_tag — membership in the tag set. -/
def Scenario.has_tag (sc : Scenario) (t : String) : Bool := sc.tags.contains t

/-- Modelled from the spec: Scenario._add_tag — set insertion. -/
def add_tag (sc : Scenario) (t : String) : Scenario :=
  { sc with tags := if sc.tags.contains t then sc.tags else t :: sc.tags }

/-- Modelled from the spec: Scenario._remove_tag — set removal. -/
def remove_tag (sc : Scenario) (t : String) : Scenario :=
  { sc with tags := sc.tags.filter (fun x => x != t) }

/-- Modelled from the spec: a scenario configuration resolves to pipeline
configs, an optional frequency, properties (of which only `authorized_tags`
is consulted by the manager) and comparators (data values are modelled as
integers). -/
structure Comparator where
  name : String
  fn : List Int → Int

structure ScenarioConfig where
  id : String
  pipeline_configs : List String
  frequency : Option Frequency
  authorized_tags : List String
  comparators : List (String × List Comparator)

/-- The persisted state: one in-memory repository per entity type, plus a
fresh-identity counter. -/
structure State where
  scenarios : List Scenario
  cycles : List Cycle
  pipelines : List Pipeline
  next_id : Nat
deriving Repr

/-- The error taxonomy of the scenario manager
(taipy/core/exceptions/scenario.py). -/
inductive ManagerError where
  | NonExistingScenario
  | NonExistingScenarioConfig
  | NonExistingComparator
  | DoesNotBelongToACycle
  | DeletingMasterScenario
  | DifferentScenarioConfigs
  | InsufficientScenarioToCompare
  | UnauthorizedTagError
deriving DecidableEq, Repr

/-- Embedding of the generic Manager._get for scenarios: repository lookup
by id. -/
def find_scenario (s : State) (sid : Nat) : Option Scenario :=
  s.scenarios.find? (fun sc => sc.id == sid)

/-- Embedding of the generic Manager._set for scenarios: upsert by id. -/
def set_scenario (s : State) (sc : Scenario) : State :=
  if s.scenarios.any (fun x => x.id == sc.id) then
    { s with scenarios := s.scenarios.map (fun x => if x.id == sc.id then sc else x) }
  else
    { s with scenarios := s.scenarios ++ [sc] }

/-- Embedding of ScenarioManager._get_all_by_cycle (scenario.cycle is a weak
reference compared by identity). -/
def get_all_by_cycle (s : State) (cid : Nat) : List Scenario :=
  s.scenarios.filter (fun sc => sc.cycle == some cid)

/-- Embedding of ScenarioManager._get_master: first master among the cycle's
scenarios, none if absent. -/
def get_master (s : State) (cid : Nat) : Option Scenario :=
  (get_all_by_cycle s cid).find? (fun sc => sc.is_master)

/-- Embedding of ScenarioManager._get_by_tag: first scenario of the cycle
holding the tag, none if absent. -/
def get_by_tag (s : State) (cid : Nat) (t : String) : Option Scenario :=
  (get_all_by_cycle s cid).find? (fun sc => sc.has_tag t)

/-- Embedding of ScenarioManager._get_all_by_tag. -/
def get_all_by_tag (s : State) (t : String) : List Scenario :=
  s.scenarios.filter (fun sc => sc.has_tag t)

/-- Embedding of ScenarioManager._get_all_masters. -/
def get_all_masters (s : State) : List Scenario :=
  s.scenarios.filter (fun sc => sc.is_master)

/-- Embedding of ScenarioManager._get_all_by_config_id. -/
def get_all_by_config_id (s : State) (config_id : String) : List Scenario :=
  s.scenarios.filter (fun sc => sc.config_id == config_id)

/-! ## Cycle manager (embedding of _CycleManager) -/

/-- Modelled from the spec: the cycle repository query
get_cycles_by_frequency_and_start_date — look up existing cycles with
matching (frequency, start date). -/
def get_cycles_by_frequency_and_start_date (s : State) (frequency : Frequency)
    (start_date : DateTime) : List Cycle :=
  s.cycles.filter (fun c => c.frequency == frequency && c.start_date == start_date)

/-- Embedding of CycleManager._create: compute the bucket boundaries, build
the cycle and persist it (a fresh identity is drawn from the counter). -/
def cycle_create (s : State) (frequency : Frequency) (creation_date : DateTime) :
    Cycle × State :=
  let start_date := get_start_date_of_cycle frequency creation_date
  let end_date := get_end_date_of_cycle frequency start_date
  let c : Cycle := ⟨s.next_id, frequency, creation_date, start_date, end_date⟩
  (c, { s with cycles := s.cycles ++ [c], next_id := s.next_id + 1 })

/-- Embedding of CycleManager._get_or_create: compute the bucket start, reuse
the first matching cycle if any, else create one. -/
def cycle_get_or_create (s : State) (frequency : Frequency)
    (creation_date : DateTime) : Cycle × State :=
  let start_date := get_start_date_of_cycle frequency creation_date
  match get_cycles_by_frequency_and_start_date s frequency start_date with
  | c :: _ => (c, s)
  | [] => cycle_create s frequency creation_date

/-! ## Scenario manager (embedding of _ScenarioManager) -/

/-- Modelled from the spec: PipelineManager._get_or_create(pipelineConfig,
scenarioId) — obtain-or-create the pipeline scoped to the scenario's
identity, idempotent per (template, scenario) pair. -/
def pipeline_get_or_create (s : State) (p_config : String) (sid : Nat) :
    Pipeline × State :=
  match s.pipelines.find? (fun p => p.config_id == p_config && p.parent_id == sid) with
  | some p => (p, s)
  | none =>
    let p : Pipeline := ⟨s.next_id, p_config, sid⟩
    (p, { s with pipelines := s.pipelines ++ [p], next_id := s.next_id + 1 })

/-- The pipeline list comprehension of ScenarioManager._create: obtain or
create one pipeline per configured template, threading the repository state
left to right. -/
def pipelines_create (s : State) (configs : List String) (sid : Nat) :
    List Pipeline × State :=
  match configs with
  | [] => ([], s)
  | pc :: rest =>
    let r := pipeline_get_or_create s pc sid
    let rr := pipelines_create r.2 rest sid
    (r.1 :: rr.1, rr.2)

/-- Embedding of ScenarioManager._create: draw a fresh scenario identity,
obtain-or-create each configured pipeline scoped to it, obtain-or-create the
owning cycle when the configuration has a frequency, flag the scenario
master iff no other scenario exists in that cycle, persist and return it. -/
def scenario_create (s : State) (config : ScenarioConfig)
    (creation_date : DateTime) : Scenario × State :=
  let scenario_id := s.next_id
  let s1 : State := { s with next_id := s.next_id + 1 }
  let ps := pipelines_create s1 config.pipeline_configs scenario_id
  let pipelines := ps.1
  let s2 := ps.2
  let cs : Option Nat × State :=
    match config.frequency with
    | some f =>
      let r := cycle_get_or_create s2 f creation_date
      (some r.1.id, r.2)
    | none => (none, s2)
  let cycle := cs.1
  let s3 := cs.2
  let is_master_scenario :=
    match cycle with
    | some cid => (get_all_by_cycle s3 cid).length == 0
    | none => false
  let scenario : Scenario :=
    { id := scenario_id, config_id := config.id, pipelines := pipelines,
      authorized_tags := config.authorized_tags, creation_date := creation_date,
      is_master := is_master_scenario, cycle := cycle, tags := [],
      subscribers := [] }
  (scenario, set_scenario s3 scenario)

/-- Embedding of ScenarioManager._set_master: fail when the scenario has no
cycle; otherwise unflag and persist the cycle's current master (if any),
then flag and persist the target. -/
def scenario_set_master (s : State) (sid : Nat) : Except ManagerError State :=
  match find_scenario s sid with
  | none => .error .NonExistingScenario
  | some scenario =>
    match scenario.cycle with
    | some cid =>
      let s1 :=
        match get_master s cid with
        | some master_scenario =>
            set_scenario s { master_scenario with is_master := false }
        | none => s
      .ok (set_scenario s1 { scenario with is_master := true })
    | none => .error .DoesNotBelongToACycle

/-- Embedding of ScenarioManager._tag: reject a tag not in a non-empty
authorized set; when the scenario belongs to a cycle, transfer the tag away
from its current holder in that cycle (persisting it); then add the tag to
the target and persist. -/
def scenario_tag (s : State) (sid : Nat) (t : String) :
    Except ManagerError State :=
  match find_scenario s sid with
  | none => .error .NonExistingScenario
  | some scenario =>
    if 0 < scenario.authorized_tags.length ∧ ¬ scenario.authorized_tags.contains t
    then .error .UnauthorizedTagError
    else
      let s1 :=
        match scenario.cycle with
        | some cid =>
          match get_by_tag s cid t with
          | some old_tagged_scenario =>
              set_scenario s (remove_tag old_tagged_scenario t)
          | none => s
        | none => s
      .ok (set_scenario s1 (add_tag scenario t))

/-- Embedding of ScenarioManager._untag: unconditional removal and persist. -/
def scenario_untag (s : State) (sid : Nat) (t : String) :
    Except ManagerError State :=
  match find_scenario s sid with
  | none => .error .NonExistingScenario
  | some scenario => .ok (set_scenario s (remove_tag scenario t))

/-- Embedding of ScenarioManager._delete (soft): guard against deleting the
master, then generic entity deletion. -/
def scenario_delete (s : State) (sid : Nat) : Except ManagerError State :=
  match find_scenario s sid with
  | none => .error .NonExistingScenario
  | some scenario =>
    if scenario.is_master then .error .DeletingMasterScenario
    else .ok { s with scenarios := s.scenarios.filter (fun x => x.id != sid) }

/-- Modelled from the spec: PipelineManager._hard_delete(pipelineId,
scenarioId) — delete the pipeline record iff it is owned by the scenario
(its parent_id equals the scenario id); a pipeline whose parent_id equals
its own id is independently owned and is not cascade-deleted. -/
def pipeline_hard_delete (s : State) (pid : Nat) (sid : Nat) : State :=
  { s with pipelines :=
      s.pipelines.filter (fun q => ! (q.id == pid && q.parent_id == sid)) }

/-- Embedding of ScenarioManager._hard_delete: guard against deleting the
master; for every owned pipeline (parent_id equal to the scenario id or to
the pipeline's own id) issue a pipeline hard delete scoped to this scenario,
then delete the scenario record. -/
def scenario_hard_delete (s : State) (sid : Nat) : Except ManagerError State :=
  match find_scenario s sid with
  | none => .error .NonExistingScenario
  | some scenario =>
    if scenario.is_master then .error .DeletingMasterScenario
    else
      let s1 := scenario.pipelines.foldl
        (fun st p =>
          if p.parent_id == scenario.id || p.parent_id == p.id
          then pipeline_hard_delete st p.id scenario.id
          else st) s
      .ok { s1 with scenarios := s1.scenarios.filter (fun x => x.id != sid) }

/-- Embedding of ScenarioManager._subscribe: with no scenario given, add the
callback to every scenario (persisting each); otherwise to the one given. -/
def scenario_subscribe (s : State) (cb : Nat) (sid? : Option Nat) :
    Except ManagerError State :=
  match sid? with
  | none =>
    .ok { s with scenarios :=
      s.scenarios.map (fun sc => { sc with subscribers := sc.subscribers ++ [cb] }) }
  | some sid =>
    match find_scenario s sid with
    | none => .error .NonExistingScenario
    | some sc =>
      .ok (set_scenario s { sc with subscribers := sc.subscribers ++ [cb] })

/-- Embedding of ScenarioManager._unsubscribe: symmetric removal (first
occurrence, as list.remove). -/
def scenario_unsubscribe (s : State) (cb : Nat) (sid? : Option Nat) :
    Except ManagerError State :=
  match sid? with
  | none =>
    .ok { s with scenarios :=
      s.scenarios.map (fun sc => { sc with subscribers := sc.subscribers.erase cb }) }
  | some sid =>
    match find_scenario s sid with
    | none => .error .NonExistingScenario
    | some sc =>
      .ok (set_scenario s { sc with subscribers := sc.subscribers.erase cb })

/-- Embedding of ScenarioManager._compare.  The configuration store
(Config.scenarios) and the attribute-style data-node read are environment
parameters: `config_store` resolves a config id, `read sid dnid` is the
value read from scenario `sid`'s data node `dnid`. -/
def scenario_compare (config_store : String → Option ScenarioConfig)
    (read : Nat → String → Int) (scenarios : List Scenario)
    (data_node_config_id : Option String) :
    Except ManagerError (List (String × List (String × Int))) :=
  match scenarios with
  | s0 :: _ :: _ =>
    if ¬ scenarios.all (fun sc => s0.config_id == sc.config_id) then
      .error .DifferentScenarioConfigs
    else
      match config_store s0.config_id with
      | some scenario_config =>
        let dn_comparators? : Except ManagerError (List (String × List Comparator)) :=
          match data_node_config_id with
          | some dnid =>
            match scenario_config.comparators.lookup dnid with
            | some comps => .ok [(dnid, comps)]
            | none => .error .NonExistingComparator
          | none => .ok scenario_config.comparators
        match dn_comparators? with
        | .error e => .error e
        | .ok dn_comparators =>
          .ok (dn_comparators.map (fun pr =>
            (pr.1, pr.2.map (fun c =>
              (c.name, c.fn (scenarios.map (fun sc => read sc.id pr.1)))))))
      | none => .error .NonExistingScenarioConfig
  | _ => .error .InsufficientScenarioToCompare

/-! ## Operations and reachability -/

/-- The mutating operations of the scenario manager (plus cycle
get-or-create, which is also exposed to callers). -/
inductive Op where
  | create (config : ScenarioConfig) (creation_date : DateTime)
  | set_master (sid : Nat)
  | tag (sid : Nat) (t : String)
  | untag (sid : Nat) (t : String)
  | delete (sid : Nat)
  | hard_delete (sid : Nat)
  | subscribe (cb : Nat) (sid? : Option Nat)
  | unsubscribe (cb : Nat) (sid? : Option Nat)
  | get_or_create_cycle (frequency : Frequency) (creation_date : DateTime)

/-- Result state of an operation; a rejected operation leaves the state
unchanged (every guard fails before any mutation). -/
def apply_op (op : Op) (s : State) : State :=
  match op with
  | .create config creation_date => (scenario_create s config creation_date).2
  | .set_master sid => (scenario_set_master s sid).toOption.getD s
  | .tag sid t => (scenario_tag s sid t).toOption.getD s
  | .untag sid t => (scenario_untag s sid t).toOption.getD s
  | .delete sid => (scenario_delete s sid).toOption.getD s
  | .hard_delete sid => (scenario_hard_delete s sid).toOption.getD s
  | .subscribe cb sid? => (scenario_subscribe s cb sid?).toOption.getD s
  | .unsubscribe cb sid? => (scenario_unsubscribe s cb sid?).toOption.getD s
  | .get_or_create_cycle f creation_date => (cycle_get_or_create s f creation_date).2

/-- The empty initial state. -/
def init_state : State := ⟨[], [], [], 0⟩

/-- States reachable from the empty state by manager operations. -/
inductive Reachable : State → Prop where
  | init : Reachable init_state
  | step {s : State} (op : Op) : Reachable s → Reachable (apply_op op s)

/-- Number of scenarios of state `s` that belong to cycle `cid`. -/
def cyc_cnt (s : State) (cid : Nat) : Nat :=
  s.scenarios.countP (fun sc => sc.cycle == some cid)

/-- Number of master scenarios of state `s` that belong to cycle `cid`. -/
def mas_cnt (s : State) (cid : Nat) : Nat :=
  s.scenarios.countP (fun sc => sc.cycle == some cid && sc.is_master)

/-- The master invariant of claim C2: within any cycle at most one master,
and exactly one as soon as the cycle has any scenario. -/
def MasterInv (s : State) : Prop :=
  ∀ cid : Nat, mas_cnt s cid ≤ 1 ∧ (0 < cyc_cnt s cid → mas_cnt s cid = 1)

/-- Well-formedness of the persisted state: identities are pairwise distinct
and below the fresh-id counter, and cycle references are below the
counter. -/
def WF (s : State) : Prop :=
  s.scenarios.Pairwise (fun a b => a.id ≠ b.id)
  ∧ s.cycles.Pairwise (fun a b => a.id ≠ b.id)
  ∧ (∀ sc ∈ s.scenarios, sc.id < s.next_id
      ∧ ∀ cid, sc.cycle = some cid → cid < s.next_id)
  ∧ (∀ c ∈ s.cycles, c.id < s.next_id)
  ∧ (∀ p ∈ s.pipelines, p.id < s.next_id)

/-! ## List helpers for the update/delete/count reasoning -/

lemma any_id_of_mem {l : List Scenario} {x : Scenario} {i : Nat}
    (hx : x ∈ l) (hid : x.id = i) : l.any (fun y => y.id == i) = true := by
  rw [List.any_eq_true]
  exact ⟨x, hx, by simp [hid]⟩

lemma upd_id (b : Scenario) (x : Scenario) :
    ((if x.id == b.id then b else x)).id = x.id := by
  split_ifs with h
  · rw [beq_iff_eq] at h; omega
  · rfl

lemma pairwise_set {l : List Scenario} (b : Scenario)
    (h : l.Pairwise (fun a b => a.id ≠ b.id)) :
    (l.map (fun x => if x.id == b.id then b else x)).Pairwise
      (fun a b => a.id ≠ b.id) := by
  rw [List.pairwise_map]
  exact h.imp (fun {a c} hac => by rw [upd_id, upd_id]; exact hac)

lemma map_set_id {l : List Scenario} {b : Scenario}
    (h : ∀ x ∈ l, x.id ≠ b.id) :
    l.map (fun x => if x.id == b.id then b else x) = l := by
  induction l with
  | nil => rfl
  | cons a t ih =>
    have ha := h a (by simp)
    simp only [List.map_cons]
    rw [if_neg (by simpa using ha), ih (fun x hx => h x (by simp [hx]))]

lemma eq_of_mem_id {l : List Scenario} {a b : Scenario}
    (hpw : l.Pairwise (fun x y => x.id ≠ y.id)) (ha : a ∈ l) (hb : b ∈ l)
    (hid : a.id = b.id) : a = b := by
  induction l with
  | nil => cases ha
  | cons c t ih =>
    rw [List.pairwise_cons] at hpw
    rcases List.mem_cons.mp ha with rfl | ha' <;>
      rcases List.mem_cons.mp hb with rfl | hb'
    · rfl
    · exact absurd hid (hpw.1 b hb')
    · exact absurd hid.symm (hpw.1 a ha')
    · exact ih hpw.2 ha' hb'

lemma countP_set {l : List Scenario} (a b : Scenario) (p : Scenario → Bool)
    (hpw : l.Pairwise (fun x y => x.id ≠ y.id)) (ha : a ∈ l)
    (hid : b.id = a.id) :
    (l.map (fun x => if x.id == b.id then b else x)).countP p
        + (if p a then 1 else 0)
      = l.countP p + (if p b then 1 else 0) := by
  induction l with
  | nil => cases ha
  | cons c t ih =>
    rw [List.pairwise_cons] at hpw
    by_cases hc : c.id = b.id
    · have hac : a = c := by
        rcases List.mem_cons.mp ha with rfl | ha'
        · rfl
        · exact absurd (by omega : c.id = a.id) (fun hh => hpw.1 a ha' hh)
      subst hac
      have hhead : (if (a.id == b.id) = true then b else a) = b :=
        if_pos (by simpa using hc)
      rw [List.map_cons, hhead,
        map_set_id (fun x hx => by have := hpw.1 x hx; omega),
        List.countP_cons, List.countP_cons]
      omega
    · have ha' : a ∈ t := by
        rcases List.mem_cons.mp ha with rfl | ha'
        · omega
        · exact ha'
      have hhead : (if (c.id == b.id) = true then b else c) = c :=
        if_neg (by simpa using hc)
      rw [List.map_cons, hhead, List.countP_cons, List.countP_cons]
      have h2 := ih hpw.2 ha'
      omega

lemma countP_set_preserve {l : List Scenario} (b : Scenario)
    (p : Scenario → Bool) (hp : ∀ x ∈ l, x.id = b.id → p x = p b) :
    (l.map (fun x => if x.id == b.id then b else x)).countP p = l.countP p := by
  induction l with
  | nil => rfl
  | cons c t ih =>
    have ih' := ih (fun x hx => hp x (by simp [hx]))
    by_cases hc : c.id = b.id
    · have hhead : (if (c.id == b.id) = true then b else c) = b :=
        if_pos (by simpa using hc)
      rw [List.map_cons, hhead, List.countP_cons, List.countP_cons, ih',
        hp c (by simp) hc]
    · have hhead : (if (c.id == b.id) = true then b else c) = c :=
        if_neg (by simpa using hc)
      rw [List.map_cons, hhead, List.countP_cons, List.countP_cons, ih']

lemma countP_remove {l : List Scenario} (a : Scenario) (sid : Nat)
    (p : Scenario → Bool) (hpw : l.Pairwise (fun x y => x.id ≠ y.id))
    (ha : a ∈ l) (hid : a.id = sid) :
    (l.filter (fun x => x.id != sid)).countP p + (if p a then 1 else 0)
      = l.countP p := by
  induction l with
  | nil => cases ha
  | cons c t ih =>
    rw [List.pairwise_cons] at hpw
    by_cases hc : c.id = sid
    · have hac : a = c := by
        rcases List.mem_cons.mp ha with rfl | ha'
        · rfl
        · exact absurd (by omega : c.id = a.id) (fun hh => hpw.1 a ha' hh)
      subst hac
      have hfil : t.filter (fun x => x.id != sid) = t := by
        rw [List.filter_eq_self]
        intro x hx
        have := hpw.1 x hx
        simpa using by omega
      rw [List.filter_cons, if_neg (by simpa using hc), hfil, List.countP_cons]
    · have ha' : a ∈ t := by
        rcases List.mem_cons.mp ha with rfl | ha'
        · omega
        · exact ha'
      rw [List.filter_cons, if_pos (by simpa using hc), List.countP_cons,
        List.countP_cons]
      have h2 := ih hpw.2 ha'
      omega

lemma countP_map_eq {l : List Scenario} (f : Scenario → Scenario)
    (p : Scenario → Bool) (h : ∀ x ∈ l, p (f x) = p x) :
    (l.map f).countP p = l.countP p := by
  induction l with
  | nil => rfl
  | cons c t ih =>
    rw [List.map_cons, List.countP_cons, List.countP_cons,
      h c (by simp), ih (fun x hx => h x (by simp [hx]))]

lemma two_le_countP {l : List Scenario} {a b : Scenario} (p : Scenario → Bool)
    (ha : a ∈ l) (hb : b ∈ l) (hne : a ≠ b) (hpa : p a = true)
    (hpb : p b = true) : 2 ≤ l.countP p := by
  induction l with
  | nil => cases ha
  | cons c t ih =>
    rw [List.countP_cons]
    rcases List.mem_cons.mp ha with rfl | ha' <;>
      rcases List.mem_cons.mp hb with rfl | hb'
    · exact absurd rfl hne
    · have h1 : 0 < t.countP p := List.countP_pos.mpr ⟨b, hb', hpb⟩
      rw [hpa]
      simp only [if_true]
      omega
    · have h1 : 0 < t.countP p := List.countP_pos.mpr ⟨a, ha', hpa⟩
      rw [hpb]
      simp only [if_true]
      omega
    · have := ih ha' hb'
      omega

lemma countP_pos_of_mem {l : List Scenario} {a : Scenario}
    (p : Scenario → Bool) (ha : a ∈ l) (hpa : p a = true) :
    0 < l.countP p :=
  List.countP_pos.mpr ⟨a, ha, hpa⟩

/-! ## State-level helper lemmas -/

lemma find_scenario_some {s : State} {sid : Nat} {sc : Scenario}
    (h : find_scenario s sid = some sc) : sc ∈ s.scenarios ∧ sc.id = sid := by
  refine ⟨List.mem_of_find?_eq_some h, ?_⟩
  have := List.find?_some h
  simpa using this

lemma get_master_some {s : State} {cid : Nat} {m : Scenario}
    (h : get_master s cid = some m) :
    m ∈ s.scenarios ∧ m.cycle = some cid ∧ m.is_master = true := by
  unfold get_master at h
  have hmem := List.mem_of_find?_eq_some h
  have hmas := List.find?_some h
  unfold get_all_by_cycle at hmem
  rw [List.mem_filter] at hmem
  exact ⟨hmem.1, by simpa using hmem.2, hmas⟩

lemma get_master_none {s : State} {cid : Nat}
    (h : get_master s cid = none) : mas_cnt s cid = 0 := by
  unfold get_master at h
  rw [List.find?_eq_none] at h
  unfold mas_cnt
  rw [List.countP_eq_zero]
  intro x hx
  simp only [Bool.and_eq_true, beq_iff_eq]
  rintro ⟨hcy, hms⟩
  exact absurd hms (by simpa using h x (by
    unfold get_all_by_cycle
    rw [List.mem_filter]
    exact ⟨hx, by simpa using hcy⟩))

lemma get_by_tag_some {s : State} {cid : Nat} {t : String} {sc : Scenario}
    (h : get_by_tag s cid t = some sc) :
    sc ∈ s.scenarios ∧ sc.cycle = some cid ∧ sc.has_tag t = true := by
  unfold get_by_tag at h
  have hmem := List.mem_of_find?_eq_some h
  have htag := List.find?_some h
  unfold get_all_by_cycle at hmem
  rw [List.mem_filter] at hmem
  exact ⟨hmem.1, by simpa using hmem.2, htag⟩

lemma get_by_tag_none {s : State} {cid : Nat} {t : String}
    (h : get_by_tag s cid t = none) :
    ∀ x ∈ s.scenarios, x.cycle = some cid → x.has_tag t = false := by
  unfold get_by_tag at h
  rw [List.find?_eq_none] at h
  intro x hx hcy
  have := h x (by
    unfold get_all_by_cycle
    rw [List.mem_filter]
    exact ⟨hx, by simpa using hcy⟩)
  simpa using this

lemma set_scenario_frame (s : State) (b : Scenario) :
    (set_scenario s b).cycles = s.cycles
    ∧ (set_scenario s b).pipelines = s.pipelines
    ∧ (set_scenario s b).next_id = s.next_id := by
  unfold set_scenario
  split_ifs <;> exact ⟨rfl, rfl, rfl⟩

lemma set_scenario_eq_of_mem (s : State) (b x : Scenario)
    (hx : x ∈ s.scenarios) (hid : x.id = b.id) :
    set_scenario s b
      = { s with scenarios :=
            s.scenarios.map (fun y => if y.id == b.id then b else y) } := by
  unfold set_scenario
  rw [if_pos (any_id_of_mem hx hid)]

lemma set_scenario_eq_of_not_mem (s : State) (b : Scenario)
    (h : ∀ x ∈ s.scenarios, x.id ≠ b.id) :
    set_scenario s b = { s with scenarios := s.scenarios ++ [b] } := by
  unfold set_scenario
  rw [if_neg]
  rw [Bool.not_eq_true, List.any_eq_false]
  intro x hx
  simpa using h x hx

lemma WF_set (s : State) (b x : Scenario) (hwf : WF s) (hx : x ∈ s.scenarios)
    (hid : x.id = b.id)
    (hcyc : ∀ cid, b.cycle = some cid → cid < s.next_id) :
    WF (set_scenario s b) := by
  obtain ⟨hpw, hcpw, hbnd, hcbnd, hpbnd⟩ := hwf
  rw [set_scenario_eq_of_mem s b x hx hid]
  refine ⟨pairwise_set b hpw, hcpw, ?_, hcbnd, hpbnd⟩
  intro sc hsc
  rw [List.mem_map] at hsc
  obtain ⟨y, hy, rfl⟩ := hsc
  split_ifs with hyy
  · have hb : b.id < s.next_id := by have := (hbnd x hx).1; omega
    exact ⟨hb, hcyc⟩
  · exact hbnd y hy

lemma MasterInv_set_preserve (s : State) (b x : Scenario)
    (hpw : s.scenarios.Pairwise (fun a c => a.id ≠ c.id))
    (hx : x ∈ s.scenarios) (hid : x.id = b.id) (hcy : b.cycle = x.cycle)
    (hms : b.is_master = x.is_master) (hminv : MasterInv s) :
    MasterInv (set_scenario s b) := by
  rw [set_scenario_eq_of_mem s b x hx hid]
  intro cid
  have hc : cyc_cnt { s with
        scenarios := s.scenarios.map (fun y => if y.id == b.id then b else y) }
        cid
      = cyc_cnt s cid := by
    unfold cyc_cnt
    refine countP_set_preserve b _ (fun y hy hyy => ?_)
    have hxy : y = x := eq_of_mem_id hpw hy hx (by omega)
    subst hxy
    rw [hcy]
  have hm : mas_cnt { s with
        scenarios := s.scenarios.map (fun y => if y.id == b.id then b else y) }
        cid
      = mas_cnt s cid := by
    unfold mas_cnt
    refine countP_set_preserve b _ (fun y hy hyy => ?_)
    have hxy : y = x := eq_of_mem_id hpw hy hx (by omega)
    subst hxy
    rw [hcy, hms]
  rw [hc, hm]
  exact hminv cid

/-- The inductive invariant: well-formedness plus the master invariant. -/
def Inv (s : State) : Prop := WF s ∧ MasterInv s

lemma Inv_set (s : State) (b : Scenario) (h : Inv s)
    (hw : ∃ y ∈ s.scenarios, y.id = b.id ∧ b.cycle = y.cycle
      ∧ b.is_master = y.is_master) :
    Inv (set_scenario s b) := by
  obtain ⟨y, hy, hid, hcy, hms⟩ := hw
  refine ⟨WF_set s b y h.1 hy hid ?_, ?_⟩
  · intro cid hcid
    rw [hcy] at hcid
    exact ((h.1.2.2.1 y hy).2) cid hcid
  · exact MasterInv_set_preserve s b y h.1.1 hy hid hcy hms h.2

lemma set_scenario_witness (s : State) (b x : Scenario)
    (hpw : s.scenarios.Pairwise (fun a c => a.id ≠ c.id))
    (hxb : ∃ y ∈ s.scenarios, y.id = b.id ∧ b.cycle = y.cycle
      ∧ b.is_master = y.is_master)
    (hx : x ∈ s.scenarios) :
    ∃ y ∈ (set_scenario s b).scenarios, y.id = x.id ∧ x.cycle = y.cycle
      ∧ x.is_master = y.is_master := by
  obtain ⟨xb, hxbm, hxbid, hxbcy, hxbms⟩ := hxb
  rw [set_scenario_eq_of_mem s b xb hxbm hxbid]
  refine ⟨if (x.id == b.id) = true then b else x,
    List.mem_map_of_mem _ hx, upd_id b x, ?_, ?_⟩
  · by_cases hxx : x.id = b.id
    · have hxeq : x = xb := eq_of_mem_id hpw hx hxbm (by omega)
      subst hxeq
      rw [if_pos (by simpa using hxx), hxbcy]
    · rw [if_neg (by simpa using hxx)]
  · by_cases hxx : x.id = b.id
    · have hxeq : x = xb := eq_of_mem_id hpw hx hxbm (by omega)
      subst hxeq
      rw [if_pos (by simpa using hxx), hxbms]
    · rw [if_neg (by simpa using hxx)]

lemma inv_untag (s : State) (sid : Nat) (t : String) (h : Inv s) :
    Inv ((scenario_untag s sid t).toOption.getD s) := by
  unfold scenario_untag
  cases hf : find_scenario s sid with
  | none => exact h
  | some sc =>
    obtain ⟨hmem, hid⟩ := find_scenario_some hf
    show Inv (set_scenario s (remove_tag sc t))
    exact Inv_set s _ h ⟨sc, hmem, rfl, rfl, rfl⟩

lemma inv_subscribe_map (s : State) (f : Scenario → Scenario)
    (hfid : ∀ x, (f x).id = x.id) (hfcy : ∀ x, (f x).cycle = x.cycle)
    (hfms : ∀ x, (f x).is_master = x.is_master) (h : Inv s) :
    Inv { s with scenarios := s.scenarios.map f } := by
  obtain ⟨⟨hpw, hcpw, hbnd, hcbnd, hpbnd⟩, hminv⟩ := h
  refine ⟨⟨?_, hcpw, ?_, hcbnd, hpbnd⟩, ?_⟩
  · rw [List.pairwise_map]
    exact hpw.imp (fun {a c} hac => by rw [hfid, hfid]; exact hac)
  · intro sc hsc
    rw [List.mem_map] at hsc
    obtain ⟨y, hy, rfl⟩ := hsc
    have h1 := (hbnd y hy).1
    have h2 := (hbnd y hy).2
    refine ⟨by rw [hfid]; exact h1, ?_⟩
    intro cid hcid
    rw [hfcy] at hcid
    exact h2 cid hcid
  · intro cid
    have hc : cyc_cnt { s with scenarios := s.scenarios.map f } cid
        = cyc_cnt s cid := by
      unfold cyc_cnt
      exact countP_map_eq f _ (fun x _ => by rw [hfcy])
    have hm : mas_cnt { s with scenarios := s.scenarios.map f } cid
        = mas_cnt s cid := by
      unfold mas_cnt
      exact countP_map_eq f _ (fun x _ => by rw [hfcy, hfms])
    rw [hc, hm]
    exact hminv cid

lemma inv_subscribe (s : State) (cb : Nat) (sid? : Option Nat) (h : Inv s) :
    Inv ((scenario_subscribe s cb sid?).toOption.getD s) := by
  cases sid? with
  | none =>
    dsimp only [scenario_subscribe]
    exact inv_subscribe_map s _ (fun x => rfl) (fun x => rfl) (fun x => rfl) h
  | some sid =>
    dsimp only [scenario_subscribe]
    cases hf : find_scenario s sid with
    | none => exact h
    | some sc =>
      obtain ⟨hmem, hid⟩ := find_scenario_some hf
      show Inv (set_scenario s { sc with subscribers := sc.subscribers ++ [cb] })
      exact Inv_set s _ h ⟨sc, hmem, rfl, rfl, rfl⟩

lemma inv_unsubscribe (s : State) (cb : Nat) (sid? : Option Nat) (h : Inv s) :
    Inv ((scenario_unsubscribe s cb sid?).toOption.getD s) := by
  cases sid? with
  | none =>
    dsimp only [scenario_unsubscribe]
    exact inv_subscribe_map s _ (fun x => rfl) (fun x => rfl) (fun x => rfl) h
  | some sid =>
    dsimp only [scenario_unsubscribe]
    cases hf : find_scenario s sid with
    | none => exact h
    | some sc =>
      obtain ⟨hmem, hid⟩ := find_scenario_some hf
      show Inv (set_scenario s { sc with subscribers := sc.subscribers.erase cb })
      exact Inv_set s _ h ⟨sc, hmem, rfl, rfl, rfl⟩

lemma inv_tag (s : State) (sid : Nat) (t : String) (h : Inv s) :
    Inv ((scenario_tag s sid t).toOption.getD s) := by
  unfold scenario_tag
  cases hf : find_scenario s sid with
  | none => exact h
  | some scenario =>
    obtain ⟨hmem, hid⟩ := find_scenario_some hf
    dsimp only
    split_ifs with hguard
    · exact h
    · cases hcy : scenario.cycle with
      | none =>
        show Inv (set_scenario s (add_tag scenario t))
        exact Inv_set s _ h ⟨scenario, hmem, rfl, rfl, rfl⟩
      | some cid =>
        dsimp only
        cases hot : get_by_tag s cid t with
        | none =>
          show Inv (set_scenario s (add_tag scenario t))
          exact Inv_set s _ h ⟨scenario, hmem, rfl, rfl, rfl⟩
        | some old =>
          obtain ⟨homem, hocy, hotag⟩ := get_by_tag_some hot
          show Inv (set_scenario (set_scenario s (remove_tag old t))
            (add_tag scenario t))
          have hbw : ∃ y ∈ s.scenarios, y.id = (remove_tag old t).id
              ∧ (remove_tag old t).cycle = y.cycle
              ∧ (remove_tag old t).is_master = y.is_master :=
            ⟨old, homem, rfl, rfl, rfl⟩
          have h1 : Inv (set_scenario s (remove_tag old t)) :=
            Inv_set s _ h hbw
          obtain ⟨y, hy, hyid, hycy, hyms⟩ :=
            set_scenario_witness s (remove_tag old t) scenario h.1.1 hbw hmem
          exact Inv_set _ _ h1 ⟨y, hy, hyid.trans rfl, hycy, hyms⟩

lemma inv_delete_core (s : State) (L : List Pipeline) (sc : Scenario)
    (sid : Nat) (hmem : sc ∈ s.scenarios) (hid : sc.id = sid)
    (hms : sc.is_master = false) (hLsub : ∀ q ∈ L, q ∈ s.pipelines)
    (h : Inv s) :
    Inv { scenarios := s.scenarios.filter (fun x => x.id != sid),
          cycles := s.cycles, pipelines := L, next_id := s.next_id } := by
  obtain ⟨⟨hpw, hcpw, hbnd, hcbnd, hpbnd⟩, hminv⟩ := h
  refine ⟨⟨?_, hcpw, ?_, hcbnd, ?_⟩, ?_⟩
  · exact List.Pairwise.sublist (List.filter_sublist _) hpw
  · intro x hx
    exact hbnd x (List.mem_of_mem_filter hx)
  · intro q hq
    exact hpbnd q (hLsub q hq)
  · intro cid
    obtain ⟨h1, h2⟩ := hminv cid
    have hcnt := countP_remove sc sid (fun x => x.cycle == some cid) hpw hmem hid
    have hmnt := countP_remove sc sid
      (fun x => x.cycle == some cid && x.is_master) hpw hmem hid
    dsimp only at hcnt hmnt
    have hmsf : (sc.cycle == some cid && sc.is_master) = false := by
      rw [hms, Bool.and_false]
    rw [hmsf] at hmnt
    have e0 : (if (false = true) then (1 : Nat) else 0) = 0 := rfl
    rw [e0] at hmnt
    have hite : (if (sc.cycle == some cid) = true then (1 : Nat) else 0) ≤ 1 := by
      split_ifs <;> omega
    simp only [mas_cnt, cyc_cnt] at h1 h2 ⊢
    constructor
    · omega
    · intro hpos
      have hp0 : 0 < s.scenarios.countP (fun x => x.cycle == some cid) := by
        omega
      have := h2 hp0
      omega

lemma hd_fold_spec (ps : List Pipeline) (sid : Nat) (s : State) :
    (ps.foldl (fun st p =>
        if p.parent_id == sid || p.parent_id == p.id
        then pipeline_hard_delete st p.id sid else st) s).scenarios = s.scenarios
    ∧ (ps.foldl (fun st p =>
        if p.parent_id == sid || p.parent_id == p.id
        then pipeline_hard_delete st p.id sid else st) s).cycles = s.cycles
    ∧ (ps.foldl (fun st p =>
        if p.parent_id == sid || p.parent_id == p.id
        then pipeline_hard_delete st p.id sid else st) s).next_id = s.next_id
    ∧ ∀ q ∈ (ps.foldl (fun st p =>
        if p.parent_id == sid || p.parent_id == p.id
        then pipeline_hard_delete st p.id sid else st) s).pipelines,
        q ∈ s.pipelines := by
  induction ps generalizing s with
  | nil => exact ⟨rfl, rfl, rfl, fun q hq => hq⟩
  | cons p ps ih =>
    rw [List.foldl_cons]
    split_ifs with hc
    · obtain ⟨e1, e2, e3, e4⟩ := ih (pipeline_hard_delete s p.id sid)
      refine ⟨e1, e2, e3, ?_⟩
      intro q hq
      exact List.mem_of_mem_filter (e4 q hq)
    · exact ih s

lemma inv_hard_delete (s : State) (sid : Nat) (h : Inv s) :
    Inv ((scenario_hard_delete s sid).toOption.getD s) := by
  unfold scenario_hard_delete
  cases hf : find_scenario s sid with
  | none => exact h
  | some sc =>
    obtain ⟨hmem, hid⟩ := find_scenario_some hf
    dsimp only
    split_ifs with hms
    · exact h
    · rw [Bool.not_eq_true] at hms
      obtain ⟨e1, e2, e3, e4⟩ := hd_fold_spec sc.pipelines sc.id s
      rw [e1, e2, e3]
      exact inv_delete_core s _ sc sid hmem hid hms e4 h

lemma inv_delete (s : State) (sid : Nat) (h : Inv s) :
    Inv ((scenario_delete s sid).toOption.getD s) := by
  unfold scenario_delete
  cases hf : find_scenario s sid with
  | none => exact h
  | some sc =>
    obtain ⟨hmem, hid⟩ := find_scenario_some hf
    dsimp only
    split_ifs with hms
    · exact h
    · rw [Bool.not_eq_true] at hms
      show Inv { s with scenarios := s.scenarios.filter (fun x => x.id != sid) }
      exact inv_delete_core s s.pipelines sc sid hmem hid hms (fun q hq => hq) h

lemma set_scenario_mem_id (s : State) (b x : Scenario) (hx : x ∈ s.scenarios)
    (hxb : x.id = b.id) : b ∈ (set_scenario s b).scenarios := by
  rw [set_scenario_eq_of_mem s b x hx hxb]
  have e : (if (x.id == b.id) = true then b else x) = b :=
    if_pos (by simpa using hxb)
  have hmm := List.mem_map_of_mem (fun y => if (y.id == b.id) = true then b else y) hx
  dsimp only at hmm
  rwa [e] at hmm

lemma set_scenario_mem_other (s : State) (b x : Scenario)
    (hx : x ∈ s.scenarios) (hxb : x.id ≠ b.id)
    (hmemb : ∃ y ∈ s.scenarios, y.id = b.id) :
    x ∈ (set_scenario s b).scenarios := by
  obtain ⟨y, hy, hyb⟩ := hmemb
  rw [set_scenario_eq_of_mem s b y hy hyb]
  have e : (if (x.id == b.id) = true then b else x) = x :=
    if_neg (by simpa using hxb)
  have hmm := List.mem_map_of_mem (fun y => if (y.id == b.id) = true then b else y) hx
  dsimp only at hmm
  rwa [e] at hmm

lemma set_scenario_pairwise (s : State) (b : Scenario)
    (hpw : s.scenarios.Pairwise (fun a c => a.id ≠ c.id)) :
    (set_scenario s b).scenarios.Pairwise (fun a c => a.id ≠ c.id) := by
  unfold set_scenario
  split_ifs with hany
  · exact pairwise_set b hpw
  · dsimp only
    rw [List.pairwise_append]
    refine ⟨hpw, List.pairwise_singleton _ _, ?_⟩
    intro x hx b' hb'
    rw [List.mem_singleton] at hb'
    subst hb'
    rw [Bool.not_eq_true, List.any_eq_false] at hany
    intro heq
    exact absurd (by simpa using heq) (by simpa using hany x hx)

lemma cyc_cnt_set (s : State) (b a : Scenario) (cid : Nat)
    (hpw : s.scenarios.Pairwise (fun x y => x.id ≠ y.id))
    (ha : a ∈ s.scenarios) (hid : b.id = a.id) :
    cyc_cnt (set_scenario s b) cid
        + (if (a.cycle == some cid) = true then 1 else 0)
      = cyc_cnt s cid + (if (b.cycle == some cid) = true then 1 else 0) := by
  rw [set_scenario_eq_of_mem s b a ha (by omega)]
  unfold cyc_cnt
  dsimp only
  exact countP_set a b _ hpw ha hid

lemma mas_cnt_set (s : State) (b a : Scenario) (cid : Nat)
    (hpw : s.scenarios.Pairwise (fun x y => x.id ≠ y.id))
    (ha : a ∈ s.scenarios) (hid : b.id = a.id) :
    mas_cnt (set_scenario s b) cid
        + (if (a.cycle == some cid && a.is_master) = true then 1 else 0)
      = mas_cnt s cid
        + (if (b.cycle == some cid && b.is_master) = true then 1 else 0) := by
  rw [set_scenario_eq_of_mem s b a ha (by omega)]
  unfold mas_cnt
  dsimp only
  exact countP_set a b _ hpw ha hid

lemma inv_set_master (s : State) (sid : Nat) (h : Inv s) :
    Inv ((scenario_set_master s sid).toOption.getD s) := by
  obtain ⟨⟨hpw, hcpw, hbnd, hcbnd, hpbnd⟩, hminv⟩ := h
  unfold scenario_set_master
  cases hf : find_scenario s sid with
  | none => exact ⟨⟨hpw, hcpw, hbnd, hcbnd, hpbnd⟩, hminv⟩
  | some scenario =>
    obtain ⟨hmem, hid⟩ := find_scenario_some hf
    dsimp only
    cases hcy : scenario.cycle with
    | none => exact ⟨⟨hpw, hcpw, hbnd, hcbnd, hpbnd⟩, hminv⟩
    | some cid0 =>
      dsimp only
      cases hgm : get_master s cid0 with
      | none =>
        dsimp only
        rw [← hcy]
        show Inv (set_scenario s { scenario with is_master := true })
        have hmz := get_master_none hgm
        constructor
        · refine WF_set s _ scenario ⟨hpw, hcpw, hbnd, hcbnd, hpbnd⟩ hmem rfl ?_
          intro cid hcid
          exact (hbnd scenario hmem).2 cid hcid
        · intro cid
          obtain ⟨g1, g2⟩ := hminv cid
          have hcq := cyc_cnt_set s { scenario with is_master := true }
            scenario cid hpw hmem rfl
          have hmq := mas_cnt_set s { scenario with is_master := true }
            scenario cid hpw hmem rfl
          dsimp only at hcq hmq
          rw [Bool.and_true] at hmq
          cases hv : (scenario.cycle == some cid) with
          | false =>
            rw [hv] at hcq hmq
            rw [Bool.false_and] at hmq
            have z : (if (false = true) then (1 : Nat) else 0) = 0 := rfl
            rw [z] at hcq hmq
            refine ⟨by omega, fun hpos => ?_⟩
            have hc0 : 0 < cyc_cnt s cid := by omega
            have := g2 hc0
            omega
          | true =>
            have hcid0 : cid0 = cid := by
              rw [hcy] at hv
              simpa using hv
            have hsm : scenario.is_master = false := by
              by_contra hx
              rw [Bool.not_eq_false] at hx
              have hp : (scenario.cycle == some cid && scenario.is_master)
                  = true := by rw [hv, hx]; rfl
              have hpos := countP_pos_of_mem
                (fun x => x.cycle == some cid && x.is_master) hmem hp
              unfold mas_cnt at hmz
              rw [hcid0] at hmz
              unfold mas_cnt at *
              omega
            rw [hv] at hcq hmq
            rw [Bool.true_and, hsm] at hmq
            have z : (if (false = true) then (1 : Nat) else 0) = 0 := rfl
            have o : (if (true = true) then (1 : Nat) else 0) = 1 := rfl
            rw [o] at hcq
            rw [z, o] at hmq
            have hmz' : mas_cnt s cid = 0 := by
              rw [← hcid0]
              exact hmz
            exact ⟨by omega, fun _ => by omega⟩
      | some m =>
        obtain ⟨hm_mem, hmcy, hmms⟩ := get_master_some hgm
        dsimp only
        rw [← hcy]
        show Inv (set_scenario (set_scenario s { m with is_master := false })
          { scenario with is_master := true })
        have hwf1 : WF (set_scenario s { m with is_master := false }) := by
          refine WF_set s _ m ⟨hpw, hcpw, hbnd, hcbnd, hpbnd⟩ hm_mem rfl ?_
          intro cid hcid
          exact (hbnd m hm_mem).2 cid hcid
        have hpw1 := hwf1.1
        have hnext1 := (set_scenario_frame s { m with is_master := false }).2.2
        by_cases hsm : scenario.id = m.id
        · have hscm : scenario = m := eq_of_mem_id hpw hmem hm_mem hsm
          subst hscm
          have ha1 : ({ scenario with is_master := false } : Scenario)
              ∈ (set_scenario s { scenario with is_master := false }).scenarios :=
            set_scenario_mem_id s _ scenario hmem rfl
          refine ⟨?_, ?_⟩
          · refine WF_set _ _ ({ scenario with is_master := false }) hwf1 ha1
              rfl ?_
            intro cid hcid
            rw [hnext1]
            exact (hbnd scenario hmem).2 cid hcid
          · intro cid
            obtain ⟨g1, g2⟩ := hminv cid
            have hcq1 := cyc_cnt_set s { scenario with is_master := false }
              scenario cid hpw hmem rfl
            have hmq1 := mas_cnt_set s { scenario with is_master := false }
              scenario cid hpw hmem rfl
            have hcq2 := cyc_cnt_set _ { scenario with is_master := true }
              ({ scenario with is_master := false }) cid hpw1 ha1 rfl
            have hmq2 := mas_cnt_set _ { scenario with is_master := true }
              ({ scenario with is_master := false }) cid hpw1 ha1 rfl
            dsimp only at hcq1 hmq1 hcq2 hmq2
            rw [Bool.and_false] at hmq1 hmq2
            rw [Bool.and_true] at hmq2
            rw [hmms, Bool.and_true] at hmq1
            have z : (if (false = true) then (1 : Nat) else 0) = 0 := rfl
            rw [z] at hmq1 hmq2
            refine ⟨by omega, fun hpos => ?_⟩
            have hc0 : 0 < cyc_cnt s cid := by omega
            have := g2 hc0
            omega
        · have ha1 : scenario
              ∈ (set_scenario s { m with is_master := false }).scenarios :=
            set_scenario_mem_other s _ scenario hmem (by simpa using hsm)
              ⟨m, hm_mem, rfl⟩
          refine ⟨?_, ?_⟩
          · refine WF_set _ _ scenario hwf1 ha1 rfl ?_
            intro cid hcid
            rw [hnext1]
            exact (hbnd scenario hmem).2 cid hcid
          · intro cid
            obtain ⟨g1, g2⟩ := hminv cid
            have hcq1 := cyc_cnt_set s { m with is_master := false } m cid hpw
              hm_mem rfl
            have hmq1 := mas_cnt_set s { m with is_master := false } m cid hpw
              hm_mem rfl
            have hcq2 := cyc_cnt_set _ { scenario with is_master := true }
              scenario cid hpw1 ha1 rfl
            have hmq2 := mas_cnt_set _ { scenario with is_master := true }
              scenario cid hpw1 ha1 rfl
            dsimp only at hcq1 hmq1 hcq2 hmq2
            rw [Bool.and_false] at hmq1
            rw [Bool.and_true] at hmq2
            rw [hmms, Bool.and_true] at hmq1
            have hvv : (m.cycle == some cid) = (scenario.cycle == some cid) := by
              rw [hmcy, hcy]
            rw [hvv] at hcq1 hmq1
            have z : (if (false = true) then (1 : Nat) else 0) = 0 := rfl
            rw [z] at hmq1
            cases hv : (scenario.cycle == some cid) with
            | false =>
              rw [hv] at hcq1 hmq1 hcq2 hmq2
              rw [Bool.false_and] at hmq2
              rw [z] at hcq1 hmq1 hcq2 hmq2
              refine ⟨by omega, fun hpos => ?_⟩
              have hc0 : 0 < cyc_cnt s cid := by omega
              have := g2 hc0
              omega
            | true =>
              have hsc_nm : scenario.is_master = false := by
                by_contra hx
                rw [Bool.not_eq_false] at hx
                have h2le := two_le_countP
                  (fun x => x.cycle == some cid && x.is_master) hmem hm_mem
                  (fun he => hsm (by rw [he]))
                  (by show (scenario.cycle == some cid && scenario.is_master)
                        = true
                      rw [hv, hx]; rfl)
                  (by show (m.cycle == some cid && m.is_master) = true
                      rw [hmms, Bool.and_true, hvv, hv])
                unfold mas_cnt at g1
                omega
              rw [hv] at hcq1 hmq1 hcq2 hmq2
              rw [Bool.true_and, hsc_nm] at hmq2
              have o : (if (true = true) then (1 : Nat) else 0) = 1 := rfl
              rw [o] at hcq1 hcq2
              rw [o] at hmq1
              rw [z, o] at hmq2
              have hpos0 : 0 < mas_cnt s cid :=
                countP_pos_of_mem _ hm_mem
                  (by show (m.cycle == some cid && m.is_master) = true
                      rw [hmms, Bool.and_true, hvv, hv])
              unfold mas_cnt at g1 hpos0 hmq1 hmq2 ⊢
              refine ⟨by omega, fun _ => by omega⟩

lemma pgc_state_spec (s : State) (pc : String) (sid : Nat) :
    (pipeline_get_or_create s pc sid).2.scenarios = s.scenarios
    ∧ (pipeline_get_or_create s pc sid).2.cycles = s.cycles
    ∧ s.next_id ≤ (pipeline_get_or_create s pc sid).2.next_id
    ∧ ((∀ p ∈ s.pipelines, p.id < s.next_id)
        → ∀ p ∈ (pipeline_get_or_create s pc sid).2.pipelines,
            p.id < (pipeline_get_or_create s pc sid).2.next_id) := by
  unfold pipeline_get_or_create
  cases hm : s.pipelines.find? (fun p => p.config_id == pc && p.parent_id == sid)
    with
  | some p => exact ⟨rfl, rfl, le_refl _, fun hb => hb⟩
  | none =>
    refine ⟨rfl, rfl, by dsimp only; omega, ?_⟩
    intro hb p hp
    dsimp only at hp ⊢
    rw [List.mem_append] at hp
    rcases hp with hp | hp
    · have := hb p hp
      omega
    · rw [List.mem_singleton] at hp
      subst hp
      show s.next_id < s.next_id + 1
      omega

lemma pipelines_create_spec (configs : List String) (sid : Nat) (s : State) :
    (pipelines_create s configs sid).2.scenarios = s.scenarios
    ∧ (pipelines_create s configs sid).2.cycles = s.cycles
    ∧ s.next_id ≤ (pipelines_create s configs sid).2.next_id
    ∧ ((∀ p ∈ s.pipelines, p.id < s.next_id)
        → ∀ p ∈ (pipelines_create s configs sid).2.pipelines,
            p.id < (pipelines_create s configs sid).2.next_id) := by
  induction configs generalizing s with
  | nil => exact ⟨rfl, rfl, le_refl _, fun hb => hb⟩
  | cons pc rest ih =>
    obtain ⟨f1, f2, f3, f4⟩ := pgc_state_spec s pc sid
    obtain ⟨g1, g2, g3, g4⟩ := ih (pipeline_get_or_create s pc sid).2
    unfold pipelines_create
    dsimp only
    refine ⟨g1.trans f1, g2.trans f2, le_trans f3 g3, ?_⟩
    intro hb
    exact g4 (f4 hb)

lemma mas_le_cyc (s : State) (cid : Nat) : mas_cnt s cid ≤ cyc_cnt s cid := by
  unfold mas_cnt cyc_cnt
  apply List.countP_mono_left
  intro a _ hpa
  rw [Bool.and_eq_true] at hpa
  exact hpa.1

lemma cgoc_spec (s : State) (f : Frequency) (cd : DateTime)
    (hcpw : s.cycles.Pairwise (fun a b => a.id ≠ b.id))
    (hcbnd : ∀ c ∈ s.cycles, c.id < s.next_id) :
    (cycle_get_or_create s f cd).2.scenarios = s.scenarios
    ∧ (cycle_get_or_create s f cd).2.pipelines = s.pipelines
    ∧ s.next_id ≤ (cycle_get_or_create s f cd).2.next_id
    ∧ (cycle_get_or_create s f cd).1.id < (cycle_get_or_create s f cd).2.next_id
    ∧ (cycle_get_or_create s f cd).2.cycles.Pairwise (fun a b => a.id ≠ b.id)
    ∧ (∀ c ∈ (cycle_get_or_create s f cd).2.cycles,
        c.id < (cycle_get_or_create s f cd).2.next_id) := by
  unfold cycle_get_or_create
  dsimp only
  cases hm : get_cycles_by_frequency_and_start_date s f
      (get_start_date_of_cycle f cd) with
  | cons c rest =>
    have hc : c ∈ s.cycles := by
      have : c ∈ get_cycles_by_frequency_and_start_date s f
          (get_start_date_of_cycle f cd) := by
        rw [hm]; exact List.mem_cons_self _ _
      unfold get_cycles_by_frequency_and_start_date at this
      exact List.mem_of_mem_filter this
    exact ⟨rfl, rfl, le_refl _, hcbnd c hc, hcpw, hcbnd⟩
  | nil =>
    unfold cycle_create
    dsimp only
    refine ⟨rfl, rfl, by omega, by show s.next_id < s.next_id + 1; omega, ?_, ?_⟩
    · rw [List.pairwise_append]
      refine ⟨hcpw, List.pairwise_singleton _ _, ?_⟩
      intro x hx c' hc'
      rw [List.mem_singleton] at hc'
      subst hc'
      have := hcbnd x hx
      show x.id ≠ s.next_id
      omega
    · intro c' hc'
      rw [List.mem_append] at hc'
      rcases hc' with hc' | hc'
      · have := hcbnd c' hc'
        show c'.id < s.next_id + 1
        omega
      · rw [List.mem_singleton] at hc'
        subst hc'
        show s.next_id < s.next_id + 1
        omega

lemma inv_cycle_goc (s : State) (f : Frequency) (cd : DateTime) (h : Inv s) :
    Inv (cycle_get_or_create s f cd).2 := by
  obtain ⟨⟨hpw, hcpw, hbnd, hcbnd, hpbnd⟩, hminv⟩ := h
  obtain ⟨e1, e2, e3, e4, e5, e6⟩ := cgoc_spec s f cd hcpw hcbnd
  refine ⟨⟨?_, e5, ?_, e6, ?_⟩, ?_⟩
  · rw [e1]; exact hpw
  · intro sc hsc
    rw [e1] at hsc
    obtain ⟨b1, b2⟩ := hbnd sc hsc
    exact ⟨by omega, fun cid hcid => by have := b2 cid hcid; omega⟩
  · intro p hp
    rw [e2] at hp
    have := hpbnd p hp
    omega
  · intro cid
    obtain ⟨g1, g2⟩ := hminv cid
    have hc : cyc_cnt (cycle_get_or_create s f cd).2 cid = cyc_cnt s cid := by
      unfold cyc_cnt
      rw [e1]
    have hm : mas_cnt (cycle_get_or_create s f cd).2 cid = mas_cnt s cid := by
      unfold mas_cnt
      rw [e1]
    rw [hc, hm]
    exact ⟨g1, g2⟩

lemma inv_create_core (sOld : State) (s3 : State) (sc : Scenario)
    (h : Inv sOld)
    (hscen : s3.scenarios = sOld.scenarios)
    (hcpw3 : s3.cycles.Pairwise (fun a b => a.id ≠ b.id))
    (hcbnd3 : ∀ c ∈ s3.cycles, c.id < s3.next_id)
    (hpbnd3 : ∀ p ∈ s3.pipelines, p.id < s3.next_id)
    (hnext : sOld.next_id < s3.next_id)
    (hscid : sc.id = sOld.next_id)
    (hsccy : ∀ cid, sc.cycle = some cid → cid < s3.next_id)
    (hmaster : ∀ cid, sc.cycle = some cid →
        (sc.is_master = true ↔ cyc_cnt sOld cid = 0)) :
    Inv (set_scenario s3 sc) := by
  obtain ⟨⟨hpw, hcpw, hbnd, hcbnd, hpbnd⟩, hminv⟩ := h
  have hne : ∀ x ∈ s3.scenarios, x.id ≠ sc.id := by
    intro x hx
    rw [hscen] at hx
    have := (hbnd x hx).1
    omega
  rw [set_scenario_eq_of_not_mem s3 sc hne]
  refine ⟨⟨?_, hcpw3, ?_, hcbnd3, hpbnd3⟩, ?_⟩
  · rw [hscen, List.pairwise_append]
    refine ⟨hpw, List.pairwise_singleton _ _, ?_⟩
    intro x hx sc' hsc'
    rw [List.mem_singleton] at hsc'
    subst hsc'
    have := (hbnd x hx).1
    omega
  · intro x hx
    dsimp only at hx
    rw [List.mem_append] at hx
    rcases hx with hx | hx
    · rw [hscen] at hx
      obtain ⟨b1, b2⟩ := hbnd x hx
      refine ⟨?_, ?_⟩
      · show x.id < s3.next_id
        omega
      · intro cid hcid
        show cid < s3.next_id
        have := b2 cid hcid
        omega
    · rw [List.mem_singleton] at hx
      rw [hx]
      refine ⟨?_, ?_⟩
      · show sc.id < s3.next_id
        omega
      · intro cid hcid
        show cid < s3.next_id
        exact hsccy cid hcid
  · intro cid
    obtain ⟨g1, g2⟩ := hminv cid
    have hcq : cyc_cnt { s3 with scenarios := s3.scenarios ++ [sc] } cid
        = cyc_cnt sOld cid
          + (if (sc.cycle == some cid) = true then 1 else 0) := by
      unfold cyc_cnt
      dsimp only
      rw [List.countP_append, hscen, List.countP_cons, List.countP_nil]
      omega
    have hmq : mas_cnt { s3 with scenarios := s3.scenarios ++ [sc] } cid
        = mas_cnt sOld cid
          + (if (sc.cycle == some cid && sc.is_master) = true then 1 else 0) := by
      unfold mas_cnt
      dsimp only
      rw [List.countP_append, hscen, List.countP_cons, List.countP_nil]
      omega
    rw [hcq, hmq]
    cases hsccyc : sc.cycle with
    | none =>
      have hz1 : ((none : Option Nat) == some cid) = false := rfl
      rw [hz1, Bool.false_and]
      have z : (if (false = true) then (1 : Nat) else 0) = 0 := rfl
      rw [z]
      exact ⟨by omega, fun hpos => by have := g2 (by omega); omega⟩
    | some cidc =>
      by_cases hcc : cidc = cid
      · subst hcc
        have ho : ((some cidc : Option Nat) == some cidc) = true := by simp
        rw [ho, Bool.true_and]
        have hmiff := hmaster cidc hsccyc
        have hmlc := mas_le_cyc sOld cidc
        by_cases hzero : cyc_cnt sOld cidc = 0
        · have hmt : sc.is_master = true := hmiff.mpr hzero
          rw [hmt]
          have o : (if (true = true) then (1 : Nat) else 0) = 1 := rfl
          rw [o]
          exact ⟨by omega, fun _ => by omega⟩
        · have hmf : sc.is_master = false := by
            cases hb : sc.is_master
            · rfl
            · exact absurd (hmiff.mp hb) hzero
          rw [hmf]
          have z : (if (false = true) then (1 : Nat) else 0) = 0 := rfl
          have o : (if (true = true) then (1 : Nat) else 0) = 1 := rfl
          rw [z, o]
          have hm1 := g2 (by omega)
          exact ⟨by omega, fun _ => by omega⟩
      · have hz : ((some cidc : Option Nat) == some cid) = false := by
          simpa using hcc
        rw [hz, Bool.false_and]
        have z : (if (false = true) then (1 : Nat) else 0) = 0 := rfl
        rw [z]
        exact ⟨by omega, fun hpos => by have := g2 (by omega); omega⟩

lemma inv_create (s : State) (config : ScenarioConfig) (cd : DateTime)
    (h : Inv s) : Inv (scenario_create s config cd).2 := by
  obtain ⟨⟨hpw, hcpw, hbnd, hcbnd, hpbnd⟩, hminv⟩ := h
  unfold scenario_create
  dsimp only
  obtain ⟨e1, e2, e3, e4⟩ := pipelines_create_spec config.pipeline_configs
    s.next_id { s with next_id := s.next_id + 1 }
  dsimp only at e1 e2 e3 e4
  have hpb2 : ∀ p ∈ (pipelines_create { s with next_id := s.next_id + 1 }
      config.pipeline_configs s.next_id).2.pipelines,
      p.id < (pipelines_create { s with next_id := s.next_id + 1 }
        config.pipeline_configs s.next_id).2.next_id := by
    apply e4
    intro p hp
    show p.id < s.next_id + 1
    have := hpbnd p hp
    omega
  cases hfreq : config.frequency with
  | none =>
    dsimp only
    refine inv_create_core s _ _ ⟨⟨hpw, hcpw, hbnd, hcbnd, hpbnd⟩, hminv⟩
      e1 ?_ ?_ hpb2 ?_ rfl ?_ ?_
    · rw [e2]; exact hcpw
    · intro c hc
      rw [e2] at hc
      have := hcbnd c hc
      omega
    · omega
    · intro cid hcid
      exact absurd hcid (by simp)
    · intro cid hcid
      exact absurd hcid (by simp)
  | some freq =>
    dsimp only
    have hcpw2 : (pipelines_create { s with next_id := s.next_id + 1 }
        config.pipeline_configs s.next_id).2.cycles.Pairwise
        (fun a b => a.id ≠ b.id) := by
      rw [e2]; exact hcpw
    have hcbnd2 : ∀ c ∈ (pipelines_create { s with next_id := s.next_id + 1 }
        config.pipeline_configs s.next_id).2.cycles,
        c.id < (pipelines_create { s with next_id := s.next_id + 1 }
          config.pipeline_configs s.next_id).2.next_id := by
      intro c hc
      rw [e2] at hc
      have := hcbnd c hc
      omega
    obtain ⟨g1, g2, g3, g4, g5, g6⟩ := cgoc_spec
      (pipelines_create { s with next_id := s.next_id + 1 }
        config.pipeline_configs s.next_id).2 freq cd hcpw2 hcbnd2
    refine inv_create_core s _ _ ⟨⟨hpw, hcpw, hbnd, hcbnd, hpbnd⟩, hminv⟩
      (g1.trans e1) g5 g6 ?_ ?_ rfl ?_ ?_
    · intro p hp
      rw [g2] at hp
      have := hpb2 p hp
      omega
    · omega
    · intro cid hcid
      have hcid' := Option.some.inj hcid
      rw [← hcid']
      exact g4
    · intro cid hcid
      have hcid' := Option.some.inj hcid
      rw [← hcid']
      have hlen : (get_all_by_cycle
          (cycle_get_or_create (pipelines_create { s with
            next_id := s.next_id + 1 } config.pipeline_configs s.next_id).2
            freq cd).2
          (cycle_get_or_create (pipelines_create { s with
            next_id := s.next_id + 1 } config.pipeline_configs s.next_id).2
            freq cd).1.id).length
          = cyc_cnt s (cycle_get_or_create (pipelines_create { s with
            next_id := s.next_id + 1 } config.pipeline_configs s.next_id).2
            freq cd).1.id := by
        unfold get_all_by_cycle cyc_cnt
        rw [g1, e1]
        exact (List.countP_eq_length_filter _ _).symm
      show ((get_all_by_cycle _ _).length == 0) = true ↔ _
      rw [hlen]
      exact beq_iff_eq

lemma inv_init : Inv init_state := by
  refine ⟨⟨List.Pairwise.nil, List.Pairwise.nil, ?_, ?_, ?_⟩, ?_⟩
  · intro sc hsc
    cases hsc
  · intro c hc
    cases hc
  · intro p hp
    cases hp
  · intro cid
    have h1 : mas_cnt init_state cid = 0 := rfl
    have h2 : cyc_cnt init_state cid = 0 := rfl
    exact ⟨by omega, fun hpos => by omega⟩

lemma inv_apply (op : Op) (s : State) (h : Inv s) : Inv (apply_op op s) := by
  cases op with
  | create config creation_date => exact inv_create s config creation_date h
  | set_master sid => exact inv_set_master s sid h
  | tag sid t => exact inv_tag s sid t h
  | untag sid t => exact inv_untag s sid t h
  | delete sid => exact inv_delete s sid h
  | hard_delete sid => exact inv_hard_delete s sid h
  | subscribe cb sid? => exact inv_subscribe s cb sid? h
  | unsubscribe cb sid? => exact inv_unsubscribe s cb sid? h
  | get_or_create_cycle f creation_date => exact inv_cycle_goc s f creation_date h

lemma reachable_inv (s : State) (hs : Reachable s) : Inv s := by
  induction hs with
  | init => exact inv_init
  | step op _ ih => exact inv_apply op _ ih

/-- C2: in every reachable state, within any cycle at most one scenario is
master, and as soon as any scenario exists in a cycle exactly one scenario
of that cycle is master; moreover every scenario-manager operation preserves
this invariant. -/
theorem C2_master_invariant (s : State) (hs : Reachable s) :
    MasterInv s ∧ ∀ op : Op, MasterInv (apply_op op s) :=
  ⟨(reachable_inv s hs).2, fun op => (inv_apply op s (reachable_inv s hs)).2⟩

/-- Witness for C2 at the initial state. -/
theorem C2_master_invariant_wit :
    Reachable init_state
    ∧ (MasterInv init_state ∧ ∀ op : Op, MasterInv (apply_op op init_state)) :=
  ⟨Reachable.init, C2_master_invariant init_state Reachable.init⟩

lemma hd_fold_survive (ps : List Pipeline) (sid : Nat) (s : State)
    (q : Pipeline) (hq : q ∈ s.pipelines) (hqp : q.parent_id ≠ sid) :
    q ∈ (ps.foldl (fun st p =>
        if p.parent_id == sid || p.parent_id == p.id
        then pipeline_hard_delete st p.id sid else st) s).pipelines := by
  induction ps generalizing s with
  | nil => exact hq
  | cons a t ih =>
    rw [List.foldl_cons]
    split_ifs with hc
    · refine ih (pipeline_hard_delete s a.id sid) ?_
      unfold pipeline_hard_delete
      dsimp only
      rw [List.mem_filter]
      refine ⟨hq, ?_⟩
      simp [hqp]
    · exact ih s hq

lemma hd_fold_removed (ps : List Pipeline) (sid : Nat) (s : State)
    (p : Pipeline) (hp : p ∈ ps) (hpar : p.parent_id = sid) :
    ∀ q ∈ (ps.foldl (fun st p =>
        if p.parent_id == sid || p.parent_id == p.id
        then pipeline_hard_delete st p.id sid else st) s).pipelines,
      ¬ (q.id = p.id ∧ q.parent_id = sid) := by
  induction ps generalizing s with
  | nil => cases hp
  | cons a t ih =>
    rw [List.foldl_cons]
    rcases List.mem_cons.mp hp with rfl | hp'
    · rw [if_pos (by rw [hpar]; simp)]
      intro q hq
      have hq2 := (hd_fold_spec t sid (pipeline_hard_delete s p.id sid)).2.2.2
        q hq
      unfold pipeline_hard_delete at hq2
      dsimp only at hq2
      rw [List.mem_filter] at hq2
      have hnot := hq2.2
      rintro ⟨h1, h2⟩
      simp [h1, h2] at hnot
    · split_ifs with hc
      · exact ih (pipeline_hard_delete s a.id sid) hp'
      · exact ih s hp'

/-- The conclusion of claim C1 for a state, a scenario id and its record:
hard delete succeeds, the scenario record is removed (others kept), every
owned pipeline whose parent is the scenario is deleted from the pipeline
repository, and every pipeline whose parent is itself survives. -/
def C1Prop (s : State) (sid : Nat) (sc : Scenario) : Prop :=
  ∃ s', scenario_hard_delete s sid = .ok s'
    ∧ (∀ x ∈ s'.scenarios, x.id ≠ sid)
    ∧ (∀ x ∈ s.scenarios, x.id ≠ sid → x ∈ s'.scenarios)
    ∧ (∀ p ∈ s.pipelines, p ∈ sc.pipelines → p.parent_id = sc.id →
        p ∉ s'.pipelines)
    ∧ (∀ p ∈ s.pipelines, p.parent_id = p.id → p.id ≠ sc.id →
        p ∈ s'.pipelines)

/-- C1: hard-deleting a non-master scenario removes its record and every
pipeline of the scenario whose parent_id equals the scenario's id, while a
pipeline whose parent_id equals its own id is left untouched. -/
theorem C1_hard_delete_cascade (s : State) (sid : Nat) (sc : Scenario)
    (hf : find_scenario s sid = some sc) (hnm : sc.is_master = false) :
    C1Prop s sid sc := by
  unfold C1Prop scenario_hard_delete
  rw [hf]
  dsimp only
  rw [if_neg (by rw [hnm]; exact Bool.false_ne_true)]
  obtain ⟨e1, e2, e3, e4⟩ := hd_fold_spec sc.pipelines sc.id s
  refine ⟨_, rfl, ?_, ?_, ?_, ?_⟩
  · intro x hx
    dsimp only at hx
    rw [List.mem_filter] at hx
    simpa using hx.2
  · intro x hx hne
    dsimp only
    rw [List.mem_filter, e1]
    exact ⟨hx, by simpa using hne⟩
  · intro p hps hpin hpar hmem
    dsimp only at hmem
    exact hd_fold_removed sc.pipelines sc.id s p hpin hpar p hmem ⟨rfl, hpar⟩
  · intro p hps hself hne
    dsimp only
    exact hd_fold_survive sc.pipelines sc.id s p hps (by omega)

/-- A concrete scenario owning one pipeline scoped to it and one
independently-owned pipeline. -/
def c1_scenario : Scenario :=
  ⟨0, "cfg", [⟨1, "p", 0⟩, ⟨2, "q", 2⟩], [], ⟨⟨2021, 1, 1⟩, 0⟩, false, none,
    [], []⟩

/-- A concrete state containing c1_scenario and its two pipelines. -/
def c1_state : State :=
  ⟨[c1_scenario], [], [⟨1, "p", 0⟩, ⟨2, "q", 2⟩], 3⟩

/-- Witness for C1 at the concrete state. -/
theorem C1_hard_delete_cascade_wit :
    (find_scenario c1_state 0 = some c1_scenario
      ∧ c1_scenario.is_master = false)
    ∧ C1Prop c1_state 0 c1_scenario :=
  ⟨⟨rfl, rfl⟩, C1_hard_delete_cascade c1_state 0 c1_scenario rfl rfl⟩

lemma find?_unique {α : Type} (l : List α) (p : α → Bool) (a : α)
    (ha : a ∈ l) (hpa : p a = true)
    (huniq : ∀ x ∈ l, p x = true → x = a) : l.find? p = some a := by
  induction l with
  | nil => cases ha
  | cons c t ih =>
    cases hc : p c with
    | true => rw [List.find?_cons_of_pos _ hc, huniq c (List.mem_cons_self c t) hc]
    | false =>
      rw [List.find?_cons_of_neg _ (by simp [hc])]
      have hac : a ≠ c := by
        intro he
        rw [he, hc] at hpa
        cases hpa
      have ha' : a ∈ t := by
        rcases List.mem_cons.mp ha with rfl | h
        · exact absurd rfl hac
        · exact h
      exact ih ha' (fun x hx hpx => huniq x (by simp [hx]) hpx)

lemma set_scenario_lookup (s : State) (b : Scenario)
    (hxb : ∃ y ∈ s.scenarios, y.id = b.id) :
    ∀ X ∈ (set_scenario s b).scenarios, X.id = b.id → X = b := by
  obtain ⟨y0, hy0, hid0⟩ := hxb
  rw [set_scenario_eq_of_mem s b y0 hy0 hid0]
  intro X hX hXb
  dsimp only at hX
  rw [List.mem_map] at hX
  obtain ⟨y, hy, hXeq⟩ := hX
  by_cases hyb : y.id = b.id
  · rw [← hXeq, if_pos (by simpa using hyb)]
  · rw [← hXeq, if_neg (by simpa using hyb)] at hXb ⊢
    exact absurd hXb hyb

lemma set_scenario_lookup_other (s : State) (b : Scenario) :
    ∀ X ∈ (set_scenario s b).scenarios, X.id ≠ b.id → X ∈ s.scenarios := by
  unfold set_scenario
  split_ifs with hany
  · intro X hX hne
    dsimp only at hX
    rw [List.mem_map] at hX
    obtain ⟨y, hy, hXeq⟩ := hX
    by_cases hyb : y.id = b.id
    · exfalso
      apply hne
      rw [← hXeq, if_pos (by simpa using hyb)]
    · rw [← hXeq, if_neg (by simpa using hyb)]
      exact hy
  · intro X hX hne
    dsimp only at hX
    rw [List.mem_append] at hX
    rcases hX with hX | hX
    · exact hX
    · rw [List.mem_singleton] at hX
      exact absurd (by rw [hX]) hne

/-- The conclusion of claim C4: SetMaster fails without a cycle; otherwise
the former master A is unflagged, the target B is flagged, both persisted,
and GetMaster afterwards returns the persisted B record. -/
def C4Prop (s : State) (sidB : Nat) (B : Scenario) : Prop :=
  (B.cycle = none → scenario_set_master s sidB = .error .DoesNotBelongToACycle)
  ∧ ∀ cid (A : Scenario), B.cycle = some cid → A ∈ s.scenarios →
      A.cycle = some cid → A.is_master = true → A.id ≠ B.id →
      (∀ X ∈ s.scenarios, X.cycle = some cid → X.is_master = true
        → X.id = A.id) →
      s.scenarios.Pairwise (fun a b => a.id ≠ b.id) →
      ∃ s', scenario_set_master s sidB = .ok s'
        ∧ (∀ X ∈ s'.scenarios, X.id = A.id → X.is_master = false)
        ∧ (∀ X ∈ s'.scenarios, X.id = B.id → X.is_master = true)
        ∧ get_master s' cid = some { B with is_master := true }

/-- C4: SetMaster(B) fails with DoesNotBelongToACycle when B has no cycle;
otherwise, when A was the unique master of B's cycle, afterwards A is
unflagged, B is flagged, both persisted, and GetMaster returns B. -/
theorem C4_set_master (s : State) (sidB : Nat) (B : Scenario)
    (hfB : find_scenario s sidB = some B) : C4Prop s sidB B := by
  obtain ⟨hBmem, hBid⟩ := find_scenario_some hfB
  constructor
  · intro hno
    unfold scenario_set_master
    rw [hfB]
    dsimp only
    rw [hno]
  · intro cid A hBcy hAmem hAcy hAms hABne huniq hpw
    have hgm : get_master s cid = some A := by
      unfold get_master
      refine find?_unique _ _ A ?_ hAms ?_
      · unfold get_all_by_cycle
        rw [List.mem_filter]
        exact ⟨hAmem, by simp [hAcy]⟩
      · intro x hx hpx
        unfold get_all_by_cycle at hx
        rw [List.mem_filter] at hx
        have hxid := huniq x hx.1 (by simpa using hx.2) hpx
        exact eq_of_mem_id hpw hx.1 hAmem hxid
    unfold scenario_set_master
    rw [hfB]
    dsimp only
    rw [hBcy]
    dsimp only
    rw [hgm]
    dsimp only
    rw [← hBcy]
    refine ⟨_, rfl, ?_, ?_, ?_⟩
    · -- A is unflagged
      intro X hX hXid
      have hXne : X.id ≠ ({ B with is_master := true } : Scenario).id := by
        show X.id ≠ B.id
        omega
      have hX1 := set_scenario_lookup_other _ _ X hX hXne
      have hXeq := set_scenario_lookup s { A with is_master := false }
        ⟨A, hAmem, rfl⟩ X hX1 hXid
      rw [hXeq]
    · -- B is flagged
      intro X hX hXid
      have hB1 : B ∈ (set_scenario s
          { A with is_master := false }).scenarios :=
        set_scenario_mem_other s _ B hBmem
          (fun he => hABne (Eq.symm (by simpa using he))) ⟨A, hAmem, rfl⟩
      have hXeq := set_scenario_lookup _ { B with is_master := true }
        ⟨B, hB1, rfl⟩ X hX hXid
      rw [hXeq]
    · -- GetMaster returns the persisted B record
      have hB1 : B ∈ (set_scenario s
          { A with is_master := false }).scenarios :=
        set_scenario_mem_other s _ B hBmem
          (fun he => hABne (Eq.symm (by simpa using he))) ⟨A, hAmem, rfl⟩
      unfold get_master
      refine find?_unique _ _ ({ B with is_master := true }) ?_ ?_ ?_
      · unfold get_all_by_cycle
        rw [List.mem_filter]
        refine ⟨set_scenario_mem_id _ _ B hB1 rfl, ?_⟩
        show (({ B with is_master := true } : Scenario).cycle == some cid)
          = true
        simpa using hBcy
      · rfl
      · intro x hx hpx
        unfold get_all_by_cycle at hx
        rw [List.mem_filter] at hx
        by_cases hxb : x.id = ({ B with is_master := true } : Scenario).id
        · exact set_scenario_lookup _ { B with is_master := true }
            ⟨B, hB1, rfl⟩ x hx.1 hxb
        · exfalso
          have hx1 := set_scenario_lookup_other _ _ x hx.1 hxb
          by_cases hxa : x.id = ({ A with is_master := false } : Scenario).id
          · have hxe := set_scenario_lookup s { A with is_master := false }
              ⟨A, hAmem, rfl⟩ x hx1 hxa
            rw [hxe] at hpx
            cases hpx
          · have hx0 := set_scenario_lookup_other s _ x hx1 hxa
            have hxcy : x.cycle = some cid := by simpa using hx.2
            have := huniq x hx0 hxcy hpx
            exact hxa (by simpa using this)

/-- A concrete two-scenario state sharing cycle 7, scenario 0 master. -/
def c4_state : State :=
  ⟨[⟨0, "c", [], [], ⟨⟨2021, 1, 1⟩, 0⟩, true, some 7, [], []⟩,
    ⟨1, "c", [], [], ⟨⟨2021, 1, 2⟩, 0⟩, false, some 7, [], []⟩], [], [], 8⟩

/-- Witness for C4 at the concrete state. -/
theorem C4_set_master_wit :
    find_scenario c4_state 1
      = some ⟨1, "c", [], [], ⟨⟨2021, 1, 2⟩, 0⟩, false, some 7, [], []⟩
    ∧ C4Prop c4_state 1
        ⟨1, "c", [], [], ⟨⟨2021, 1, 2⟩, 0⟩, false, some 7, [], []⟩ :=
  ⟨rfl, C4_set_master c4_state 1 _ rfl⟩

lemma has_tag_remove (sc : Scenario) (t : String) :
    (remove_tag sc t).has_tag t = false := by
  unfold remove_tag Scenario.has_tag
  dsimp only
  induction sc.tags with
  | nil => rfl
  | cons a l ih =>
    rw [List.filter_cons]
    by_cases ha : a = t
    · rw [if_neg (by simp [ha])]
      exact ih
    · rw [if_pos (by simpa using ha), List.contains_cons, ih, Bool.or_false]
      simpa using fun he => ha he.symm

lemma has_tag_add (sc : Scenario) (t : String) :
    (add_tag sc t).has_tag t = true := by
  unfold add_tag Scenario.has_tag
  dsimp only
  by_cases h : sc.tags.contains t
  · rw [if_pos h]
    exact h
  · rw [if_neg h, List.contains_cons]
    simp

/-- The conclusion of claim C3: tagging B succeeds, the old holder A loses
the tag (persisted), B gains it (persisted), and GetByTag on the cycle now
returns the persisted B record. -/
def C3Prop (s : State) (sidB : Nat) (B : Scenario) (t : String) (cid : Nat)
    (A : Scenario) : Prop :=
  ∃ s', scenario_tag s sidB t = .ok s'
    ∧ (∀ X ∈ s'.scenarios, X.id = A.id → X.has_tag t = false)
    ∧ (∀ X ∈ s'.scenarios, X.id = B.id → X.has_tag t = true)
    ∧ get_by_tag s' cid t = some (add_tag B t)

/-- C3: when B belongs to a cycle, the tag is authorized for B, and A is the
scenario of that cycle currently holding the tag, Tag(B, t) removes t from A
and grants it to B, and GetByTag(cycle, t) afterwards returns B. -/
theorem C3_tag_transfer (s : State) (sidB : Nat) (B A : Scenario) (t : String)
    (cid : Nat) (hfB : find_scenario s sidB = some B)
    (hpw : s.scenarios.Pairwise (fun a b => a.id ≠ b.id))
    (hBcy : B.cycle = some cid)
    (hauth : B.authorized_tags = [] ∨ t ∈ B.authorized_tags)
    (hA : A ∈ s.scenarios) (hAcy : A.cycle = some cid)
    (hAt : A.has_tag t = true) (hAB : A.id ≠ B.id)
    (huniq : ∀ X ∈ s.scenarios, X.cycle = some cid → X.has_tag t = true
      → X.id = A.id) :
    C3Prop s sidB B t cid A := by
  obtain ⟨hBmem, hBid⟩ := find_scenario_some hfB
  have hgbt : get_by_tag s cid t = some A := by
    unfold get_by_tag
    refine find?_unique _ _ A ?_ hAt ?_
    · unfold get_all_by_cycle
      rw [List.mem_filter]
      exact ⟨hA, by simp [hAcy]⟩
    · intro x hx hpx
      unfold get_all_by_cycle at hx
      rw [List.mem_filter] at hx
      have hxid := huniq x hx.1 (by simpa using hx.2) hpx
      exact eq_of_mem_id hpw hx.1 hA hxid
  unfold C3Prop scenario_tag
  rw [hfB]
  dsimp only
  rw [if_neg (by
    rintro ⟨hlen, hcon⟩
    rcases hauth with hnil | hmem
    · rw [hnil] at hlen
      exact absurd hlen (by decide)
    · exact hcon (by simpa using hmem))]
  rw [hBcy]
  dsimp only
  rw [hgbt]
  dsimp only
  have hB1 : B ∈ (set_scenario s (remove_tag A t)).scenarios :=
    set_scenario_mem_other s _ B hBmem
      (fun he => hAB (Eq.symm (by simpa using he))) ⟨A, hA, rfl⟩
  refine ⟨_, rfl, ?_, ?_, ?_⟩
  · intro X hX hXid
    have hXne : X.id ≠ (add_tag B t).id := by
      show X.id ≠ B.id
      omega
    have hX1 := set_scenario_lookup_other _ _ X hX hXne
    have hXeq := set_scenario_lookup s (remove_tag A t) ⟨A, hA, rfl⟩ X hX1 hXid
    rw [hXeq]
    exact has_tag_remove A t
  · intro X hX hXid
    have hXeq := set_scenario_lookup _ (add_tag B t) ⟨B, hB1, rfl⟩ X hX hXid
    rw [hXeq]
    exact has_tag_add B t
  · unfold get_by_tag
    refine find?_unique _ _ (add_tag B t) ?_ ?_ ?_
    · unfold get_all_by_cycle
      rw [List.mem_filter]
      refine ⟨set_scenario_mem_id _ _ B hB1 rfl, ?_⟩
      show ((add_tag B t).cycle == some cid) = true
      have : (add_tag B t).cycle = B.cycle := rfl
      rw [this, hBcy]
      simp
    · exact has_tag_add B t
    · intro x hx hpx
      unfold get_all_by_cycle at hx
      rw [List.mem_filter] at hx
      by_cases hxb : x.id = (add_tag B t).id
      · exact set_scenario_lookup _ (add_tag B t) ⟨B, hB1, rfl⟩ x hx.1 hxb
      · exfalso
        have hx1 := set_scenario_lookup_other _ _ x hx.1 hxb
        by_cases hxa : x.id = (remove_tag A t).id
        · have hxe := set_scenario_lookup s (remove_tag A t) ⟨A, hA, rfl⟩
            x hx1 hxa
          rw [hxe, has_tag_remove] at hpx
          cases hpx
        · have hx0 := set_scenario_lookup_other s _ x hx1 hxa
          have hxcy : x.cycle = some cid := by simpa using hx.2
          have := huniq x hx0 hxcy hpx
          exact hxa (by simpa using this)

/-- A concrete two-scenario state sharing cycle 7, scenario 0 holding tag
x. -/
def c3_state : State :=
  ⟨[⟨0, "c", [], [], ⟨⟨2021, 1, 1⟩, 0⟩, true, some 7, ["x"], []⟩,
    ⟨1, "c", [], [], ⟨⟨2021, 1, 2⟩, 0⟩, false, some 7, [], []⟩], [], [], 8⟩

/-- Witness for C3 at the concrete state. -/
theorem C3_tag_transfer_wit :
    (find_scenario c3_state 1
        = some ⟨1, "c", [], [], ⟨⟨2021, 1, 2⟩, 0⟩, false, some 7, [], []⟩
      ∧ c3_state.scenarios.Pairwise (fun a b => a.id ≠ b.id)
      ∧ (⟨1, "c", [], [], ⟨⟨2021, 1, 2⟩, 0⟩, false, some 7, [], []⟩ :
          Scenario).cycle = some 7
      ∧ (⟨0, "c", [], [], ⟨⟨2021, 1, 1⟩, 0⟩, true, some 7, ["x"], []⟩ :
          Scenario) ∈ c3_state.scenarios
      ∧ (⟨0, "c", [], [], ⟨⟨2021, 1, 1⟩, 0⟩, true, some 7, ["x"], []⟩ :
          Scenario).has_tag "x" = true)
    ∧ C3Prop c3_state 1
        ⟨1, "c", [], [], ⟨⟨2021, 1, 2⟩, 0⟩, false, some 7, [], []⟩ "x" 7
        ⟨0, "c", [], [], ⟨⟨2021, 1, 1⟩, 0⟩, true, some 7, ["x"], []⟩ :=
  ⟨⟨rfl, by decide, rfl, by decide, rfl⟩,
    C3_tag_transfer c3_state 1 _ _ "x" 7 rfl (by decide) rfl (Or.inl rfl)
      (by decide) rfl rfl (by decide) (by decide)⟩

lemma scenario_create_char (s : State) (config : ScenarioConfig)
    (cd : DateTime) (f : Frequency) (hf : config.frequency = some f) :
    (scenario_create s config cd).1.id = s.next_id
    ∧ (scenario_create s config cd).1.cycle
        = some (cycle_get_or_create
            (pipelines_create { s with next_id := s.next_id + 1 }
              config.pipeline_configs s.next_id).2 f cd).1.id
    ∧ (scenario_create s config cd).1.is_master
        = ((get_all_by_cycle
            (cycle_get_or_create
              (pipelines_create { s with next_id := s.next_id + 1 }
                config.pipeline_configs s.next_id).2 f cd).2
            (cycle_get_or_create
              (pipelines_create { s with next_id := s.next_id + 1 }
                config.pipeline_configs s.next_id).2 f cd).1.id).length == 0)
    ∧ (scenario_create s config cd).2
        = set_scenario
            (cycle_get_or_create
              (pipelines_create { s with next_id := s.next_id + 1 }
                config.pipeline_configs s.next_id).2 f cd).2
            (scenario_create s config cd).1 := by
  unfold scenario_create
  rw [hf]
  dsimp only
  exact ⟨rfl, rfl, rfl, rfl⟩

/-- The conclusion of claim C5: the created scenario is master iff its
owning cycle held no scenario, the first scenario of a fresh cycle is
master, and a second scenario created in the same bucket is not. -/
def C5Prop (s : State) (config : ScenarioConfig) (cd cd2 : DateTime) : Prop :=
  (∃ cid, (scenario_create s config cd).1.cycle = some cid
    ∧ ((scenario_create s config cd).1.is_master = true
        ↔ cyc_cnt s cid = 0))
  ∧ (scenario_create s config cd).1.is_master = true
  ∧ (scenario_create (scenario_create s config cd).2 config cd2).1.is_master
      = false

/-- C5: with a frequency configured, Create flags the new scenario master
iff no other scenario exists in the owning cycle; in particular the first
scenario of a fresh cycle is master and a second scenario created in the
same bucket is not. -/
theorem C5_create_master_election (s : State) (config : ScenarioConfig)
    (cd cd2 : DateTime) (f : Frequency) (hf : config.frequency = some f)
    (hwf : WF s)
    (hsame : get_start_date_of_cycle f cd2 = get_start_date_of_cycle f cd)
    (hfresh : get_cycles_by_frequency_and_start_date s f
      (get_start_date_of_cycle f cd) = []) :
    C5Prop s config cd cd2 := by
  unfold C5Prop
  obtain ⟨hpw, hcpw, hbnd, hcbnd, hpbnd⟩ := hwf
  obtain ⟨h1id, h1cy, h1ms, h1st⟩ := scenario_create_char s config cd f hf
  obtain ⟨e1, e2, e3, e4⟩ := pipelines_create_spec config.pipeline_configs
    s.next_id { s with next_id := s.next_id + 1 }
  dsimp only at e1 e2 e3
  have hfilter2 : get_cycles_by_frequency_and_start_date
      (pipelines_create { s with next_id := s.next_id + 1 }
        config.pipeline_configs s.next_id).2 f
      (get_start_date_of_cycle f cd) = [] := by
    unfold get_cycles_by_frequency_and_start_date at hfresh ⊢
    rw [e2]
    exact hfresh
  have hgoc : cycle_get_or_create
      (pipelines_create { s with next_id := s.next_id + 1 }
        config.pipeline_configs s.next_id).2 f cd
      = cycle_create (pipelines_create { s with next_id := s.next_id + 1 }
        config.pipeline_configs s.next_id).2 f cd := by
    unfold cycle_get_or_create
    dsimp only
    rw [hfilter2]
  rw [hgoc] at h1cy h1ms h1st
  -- the created cycle has the fresh identity
  have hcid : (cycle_create (pipelines_create { s with
      next_id := s.next_id + 1 } config.pipeline_configs s.next_id).2 f
      cd).1.id
      = (pipelines_create { s with next_id := s.next_id + 1 }
        config.pipeline_configs s.next_id).2.next_id := rfl
  have hlen : (get_all_by_cycle
      (cycle_create (pipelines_create { s with next_id := s.next_id + 1 }
        config.pipeline_configs s.next_id).2 f cd).2
      (cycle_create (pipelines_create { s with next_id := s.next_id + 1 }
        config.pipeline_configs s.next_id).2 f cd).1.id).length
      = cyc_cnt s ((cycle_create (pipelines_create { s with
        next_id := s.next_id + 1 } config.pipeline_configs s.next_id).2 f
        cd).1.id) := by
    unfold get_all_by_cycle cyc_cnt cycle_create
    dsimp only
    rw [e1]
    exact (List.countP_eq_length_filter _ _).symm
  have hzero : cyc_cnt s ((cycle_create (pipelines_create { s with
      next_id := s.next_id + 1 } config.pipeline_configs s.next_id).2 f
      cd).1.id) = 0 := by
    unfold cyc_cnt
    rw [List.countP_eq_zero]
    intro x hx
    have := (hbnd x hx).2
    rw [hcid]
    intro hcon
    rw [beq_iff_eq] at hcon
    have hlt := this _ hcon
    omega
  have hmst : (scenario_create s config cd).1.is_master = true := by
    rw [h1ms, hlen, hzero]
    rfl
  refine ⟨⟨_, h1cy, ?_⟩, hmst, ?_⟩
  · constructor
    · intro _
      exact hzero
    · intro _
      exact hmst
  · -- the second creation in the same bucket is not master
    obtain ⟨h2id, h2cy, h2ms, h2st⟩ :=
      scenario_create_char (scenario_create s config cd).2 config cd2 f hf
    obtain ⟨g1, g2, g3, g4⟩ := pipelines_create_spec config.pipeline_configs
      (scenario_create s config cd).2.next_id
      { (scenario_create s config cd).2 with
        next_id := (scenario_create s config cd).2.next_id + 1 }
    dsimp only at g1 g2 g3
    -- the state after the first creation appends the new scenario
    have hset : (scenario_create s config cd).2
        = { (cycle_create (pipelines_create { s with
            next_id := s.next_id + 1 } config.pipeline_configs s.next_id).2 f
            cd).2 with
            scenarios := (cycle_create (pipelines_create { s with
              next_id := s.next_id + 1 } config.pipeline_configs
              s.next_id).2 f cd).2.scenarios ++
              [(scenario_create s config cd).1] } := by
      rw [h1st]
      apply set_scenario_eq_of_not_mem
      intro x hx
      have hx' : x ∈ s.scenarios := by
        have : (cycle_create (pipelines_create { s with
            next_id := s.next_id + 1 } config.pipeline_configs
            s.next_id).2 f cd).2.scenarios
            = s.scenarios := by
          unfold cycle_create
          dsimp only
          exact e1
        rwa [this] at hx
      have := (hbnd x hx').1
      rw [h1id]
      omega
    have hscen' : (scenario_create s config cd).2.scenarios
        = s.scenarios ++ [(scenario_create s config cd).1] := by
      rw [hset]
      dsimp only
      unfold cycle_create
      dsimp only
      rw [e1]
    have hcyc' : (scenario_create s config cd).2.cycles
        = s.cycles ++ [(cycle_create (pipelines_create { s with
            next_id := s.next_id + 1 } config.pipeline_configs s.next_id).2 f
            cd).1] := by
      rw [hset]
      dsimp only
      unfold cycle_create
      dsimp only
      rw [e2]
    -- the second lookup finds exactly the created cycle
    have hfilter' : get_cycles_by_frequency_and_start_date
        (pipelines_create { (scenario_create s config cd).2 with
          next_id := (scenario_create s config cd).2.next_id + 1 }
          config.pipeline_configs (scenario_create s config cd).2.next_id).2
        f (get_start_date_of_cycle f cd2)
        = [(cycle_create (pipelines_create { s with
            next_id := s.next_id + 1 } config.pipeline_configs s.next_id).2 f
            cd).1] := by
      unfold get_cycles_by_frequency_and_start_date
      rw [g2]
      rw [hcyc', List.filter_append]
      have hold : s.cycles.filter (fun c => c.frequency == f
          && c.start_date == get_start_date_of_cycle f cd2) = [] := by
        unfold get_cycles_by_frequency_and_start_date at hfresh
        rw [hsame]
        exact hfresh
      rw [hold]
      rw [List.filter_cons, List.filter_nil]
      rw [if_pos (by
        show ((cycle_create _ f cd).1.frequency == f
          && (cycle_create _ f cd).1.start_date
            == get_start_date_of_cycle f cd2) = true
        rw [hsame]
        simp [cycle_create])]
      rfl
    have hgoc2 : cycle_get_or_create
        (pipelines_create { (scenario_create s config cd).2 with
          next_id := (scenario_create s config cd).2.next_id + 1 }
          config.pipeline_configs (scenario_create s config cd).2.next_id).2
        f cd2
        = ((cycle_create (pipelines_create { s with
            next_id := s.next_id + 1 } config.pipeline_configs s.next_id).2 f
            cd).1,
          (pipelines_create { (scenario_create s config cd).2 with
            next_id := (scenario_create s config cd).2.next_id + 1 }
            config.pipeline_configs
            (scenario_create s config cd).2.next_id).2) := by
      unfold cycle_get_or_create
      dsimp only
      rw [hfilter']
    rw [hgoc2] at h2ms
    dsimp only at h2ms
    rw [h2ms]
    have hlen2 : (get_all_by_cycle
        (pipelines_create { (scenario_create s config cd).2 with
          next_id := (scenario_create s config cd).2.next_id + 1 }
          config.pipeline_configs (scenario_create s config cd).2.next_id).2
        (cycle_create (pipelines_create { s with
          next_id := s.next_id + 1 } config.pipeline_configs s.next_id).2 f
          cd).1.id).length
        = ((scenario_create s config cd).2.scenarios.filter
            (fun sc => sc.cycle == some ((cycle_create (pipelines_create
              { s with next_id := s.next_id + 1 } config.pipeline_configs
              s.next_id).2 f cd).1.id))).length := by
      unfold get_all_by_cycle
      rw [g1]
    rw [hlen2, hscen', List.filter_append]
    rw [List.filter_cons]
    rw [if_pos (by
      show ((scenario_create s config cd).1.cycle == _) = true
      rw [h1cy]
      simp)]
    rw [List.length_append, List.length_cons]
    cases hq : ((s.scenarios.filter _).length + _ == 0) <;> try rfl
    · rw [beq_iff_eq] at hq
      simp at hq

/-- A concrete configuration with a daily frequency and no pipelines. -/
def c5_config : ScenarioConfig := ⟨"cfg", [], some .DAILY, [], []⟩

/-- Witness for C5 from the empty state. -/
theorem C5_create_master_election_wit :
    (c5_config.frequency = some .DAILY
      ∧ WF init_state
      ∧ get_start_date_of_cycle .DAILY ⟨⟨2021, 1, 2⟩, 5⟩
          = get_start_date_of_cycle .DAILY ⟨⟨2021, 1, 2⟩, 0⟩
      ∧ get_cycles_by_frequency_and_start_date init_state .DAILY
          (get_start_date_of_cycle .DAILY ⟨⟨2021, 1, 2⟩, 0⟩) = [])
    ∧ C5Prop init_state c5_config ⟨⟨2021, 1, 2⟩, 0⟩ ⟨⟨2021, 1, 2⟩, 5⟩ :=
  ⟨⟨rfl, ⟨List.Pairwise.nil, List.Pairwise.nil, by simp [init_state],
      by simp [init_state], by simp [init_state]⟩, rfl, rfl⟩,
    C5_create_master_election init_state c5_config ⟨⟨2021, 1, 2⟩, 0⟩
      ⟨⟨2021, 1, 2⟩, 5⟩ .DAILY rfl
      ⟨List.Pairwise.nil, List.Pairwise.nil, by simp [init_state],
        by simp [init_state], by simp [init_state]⟩ rfl rfl⟩

/-- C6: guarded operations fail fast with no mutation: an unauthorized tag
raises UnauthorizedTagError, and deleting (soft or hard) a master scenario
raises DeletingMasterScenario; in each case the applied operation leaves the
state unchanged. -/
theorem C6_guards_fail_fast (s : State) (sid : Nat) (sc : Scenario)
    (t : String) (hf : find_scenario s sid = some sc) :
    (0 < sc.authorized_tags.length → sc.authorized_tags.contains t = false →
      scenario_tag s sid t = .error .UnauthorizedTagError
        ∧ apply_op (Op.tag sid t) s = s)
    ∧ (sc.is_master = true →
      scenario_delete s sid = .error .DeletingMasterScenario
        ∧ apply_op (Op.delete sid) s = s
        ∧ scenario_hard_delete s sid = .error .DeletingMasterScenario
        ∧ apply_op (Op.hard_delete sid) s = s) := by
  refine ⟨?_, ?_⟩
  · intro hlen hcon
    have htag : scenario_tag s sid t = .error .UnauthorizedTagError := by
      unfold scenario_tag
      rw [hf]
      dsimp only
      rw [if_pos ⟨hlen, by rw [hcon]; exact Bool.false_ne_true⟩]
    refine ⟨htag, ?_⟩
    show (scenario_tag s sid t).toOption.getD s = s
    rw [htag]
    rfl
  · intro hms
    have hdel : scenario_delete s sid = .error .DeletingMasterScenario := by
      unfold scenario_delete
      rw [hf]
      dsimp only
      rw [if_pos hms]
    have hhdel : scenario_hard_delete s sid
        = .error .DeletingMasterScenario := by
      unfold scenario_hard_delete
      rw [hf]
      dsimp only
      rw [if_pos hms]
    refine ⟨hdel, ?_, hhdel, ?_⟩
    · show (scenario_delete s sid).toOption.getD s = s
      rw [hdel]
      rfl
    · show (scenario_hard_delete s sid).toOption.getD s = s
      rw [hhdel]
      rfl

/-- A concrete master scenario with a non-empty authorized tag set. -/
def c6_state : State :=
  ⟨[⟨0, "c", [], ["a"], ⟨⟨2021, 1, 1⟩, 0⟩, true, some 7, [], []⟩], [], [], 8⟩

/-- Witness for C6 at the concrete state. -/
theorem C6_guards_fail_fast_wit :
    find_scenario c6_state 0
      = some ⟨0, "c", [], ["a"], ⟨⟨2021, 1, 1⟩, 0⟩, true, some 7, [], []⟩
    ∧ ((0 < (["a"] : List String).length
        → (["a"] : List String).contains "b" = false
        → scenario_tag c6_state 0 "b" = .error .UnauthorizedTagError
          ∧ apply_op (Op.tag 0 "b") c6_state = c6_state)
      ∧ (true = true →
        scenario_delete c6_state 0 = .error .DeletingMasterScenario
          ∧ apply_op (Op.delete 0) c6_state = c6_state
          ∧ scenario_hard_delete c6_state 0 = .error .DeletingMasterScenario
          ∧ apply_op (Op.hard_delete 0) c6_state = c6_state)) :=
  ⟨rfl, C6_guards_fail_fast c6_state 0
    ⟨0, "c", [], ["a"], ⟨⟨2021, 1, 1⟩, 0⟩, true, some 7, [], []⟩ "b" rfl⟩

/-- Cycle-less scenarios for the implicit-frame claim C10. -/
def c10_state : State :=
  ⟨[⟨0, "c", [], [], ⟨⟨2021, 1, 1⟩, 0⟩, false, none, [], []⟩,
    ⟨1, "c", [], [], ⟨⟨2021, 1, 1⟩, 0⟩, false, none, [], []⟩], [], [], 2⟩

/-- The state after tagging scenario 0 with x. -/
def c10_state1 : State :=
  ⟨[⟨0, "c", [], [], ⟨⟨2021, 1, 1⟩, 0⟩, false, none, ["x"], []⟩,
    ⟨1, "c", [], [], ⟨⟨2021, 1, 1⟩, 0⟩, false, none, [], []⟩], [], [], 2⟩

/-- The state after additionally tagging scenario 1 with x. -/
def c10_state2 : State :=
  ⟨[⟨0, "c", [], [], ⟨⟨2021, 1, 1⟩, 0⟩, false, none, ["x"], []⟩,
    ⟨1, "c", [], [], ⟨⟨2021, 1, 1⟩, 0⟩, false, none, ["x"], []⟩], [], [], 2⟩

/-- C10: tagging a scenario without a cycle skips the transfer step: it adds
the tag to that scenario, modifies no other entity, and two cycle-less
scenarios can hold the same tag simultaneously. -/
theorem C10_tag_without_cycle (s : State) (sid : Nat) (sc : Scenario)
    (t : String) (hf : find_scenario s sid = some sc) (hnc : sc.cycle = none)
    (hauth : sc.authorized_tags = [] ∨ t ∈ sc.authorized_tags) :
    (∃ s', scenario_tag s sid t = .ok s'
      ∧ s'.cycles = s.cycles ∧ s'.pipelines = s.pipelines
      ∧ s'.next_id = s.next_id
      ∧ (∀ X ∈ s.scenarios, X.id ≠ sc.id → X ∈ s'.scenarios)
      ∧ (∀ X ∈ s'.scenarios, X.id ≠ sc.id → X ∈ s.scenarios)
      ∧ (∀ X ∈ s'.scenarios, X.id = sc.id → X = add_tag sc t))
    ∧ scenario_tag c10_state 0 "x" = .ok c10_state1
    ∧ scenario_tag c10_state1 1 "x" = .ok c10_state2
    ∧ (∀ X ∈ c10_state2.scenarios, X.has_tag "x" = true) := by
  obtain ⟨hmem, hid⟩ := find_scenario_some hf
  refine ⟨?_, rfl, rfl, by decide⟩
  unfold scenario_tag
  rw [hf]
  dsimp only
  rw [if_neg (by
    rintro ⟨hlen, hcon⟩
    rcases hauth with hnil | hmemt
    · rw [hnil] at hlen
      exact absurd hlen (by decide)
    · exact hcon (by simpa using hmemt))]
  rw [hnc]
  dsimp only
  obtain ⟨f1, f2, f3⟩ := set_scenario_frame s (add_tag sc t)
  refine ⟨_, rfl, f1, f2, f3, ?_, ?_, ?_⟩
  · intro X hX hne
    exact set_scenario_mem_other s _ X hX (fun he => hne (by simpa using he))
      ⟨sc, hmem, rfl⟩
  · intro X hX hne
    exact set_scenario_lookup_other s _ X hX (fun he => hne (by simpa using he))
  · intro X hX hXid
    exact set_scenario_lookup s (add_tag sc t) ⟨sc, hmem, rfl⟩ X hX hXid

/-- Witness for C10 at the concrete state. -/
theorem C10_tag_without_cycle_wit :
    (find_scenario c10_state 0
        = some ⟨0, "c", [], [], ⟨⟨2021, 1, 1⟩, 0⟩, false, none, [], []⟩
      ∧ (⟨0, "c", [], [], ⟨⟨2021, 1, 1⟩, 0⟩, false, none, [], []⟩ :
          Scenario).cycle = none)
    ∧ ((∃ s', scenario_tag c10_state 0 "x" = .ok s'
        ∧ s'.cycles = c10_state.cycles ∧ s'.pipelines = c10_state.pipelines
        ∧ s'.next_id = c10_state.next_id
        ∧ (∀ X ∈ c10_state.scenarios, X.id ≠ 0 → X ∈ s'.scenarios)
        ∧ (∀ X ∈ s'.scenarios, X.id ≠ 0 → X ∈ c10_state.scenarios)
        ∧ (∀ X ∈ s'.scenarios, X.id = 0 →
            X = add_tag ⟨0, "c", [], [], ⟨⟨2021, 1, 1⟩, 0⟩, false, none, [],
              []⟩ "x"))
      ∧ scenario_tag c10_state 0 "x" = .ok c10_state1
      ∧ scenario_tag c10_state1 1 "x" = .ok c10_state2
      ∧ (∀ X ∈ c10_state2.scenarios, X.has_tag "x" = true)) :=
  ⟨⟨rfl, rfl⟩, C10_tag_without_cycle c10_state 0
    ⟨0, "c", [], [], ⟨⟨2021, 1, 1⟩, 0⟩, false, none, [], []⟩ "x" rfl rfl
    (Or.inl rfl)⟩

/-- The full conclusion of claim C7, parameterised by the environment. -/
def C7Prop (config_store : String → Option ScenarioConfig)
    (read : Nat → String → Int) (scenarios : List Scenario)
    (dnid : Option String) : Prop :=
  (scenario_compare config_store read scenarios dnid
      = .error .InsufficientScenarioToCompare ↔ scenarios.length < 2)
  ∧ (∀ a b tl, scenarios = a :: b :: tl →
    ((¬ ∀ sc ∈ scenarios, a.config_id = sc.config_id) →
      scenario_compare config_store read scenarios dnid
        = .error .DifferentScenarioConfigs)
    ∧ ((∀ sc ∈ scenarios, a.config_id = sc.config_id) →
      (config_store a.config_id = none →
        scenario_compare config_store read scenarios dnid
          = .error .NonExistingScenarioConfig)
      ∧ (∀ cfg, config_store a.config_id = some cfg →
        (∀ dn, dnid = some dn → cfg.comparators.lookup dn = none →
          scenario_compare config_store read scenarios dnid
            = .error .NonExistingComparator)
        ∧ (∀ dn comps, dnid = some dn →
            cfg.comparators.lookup dn = some comps →
          scenario_compare config_store read scenarios dnid
            = .ok [(dn, comps.map (fun c =>
                (c.name, c.fn (scenarios.map (fun sc => read sc.id dn)))))])
        ∧ (dnid = none →
          scenario_compare config_store read scenarios dnid
            = .ok (cfg.comparators.map (fun pr =>
                (pr.1, pr.2.map (fun c =>
                  (c.name,
                    c.fn (scenarios.map (fun sc => read sc.id pr.1)))))))))))

/-- C7: Compare raises InsufficientScenarioToCompare iff fewer than two
scenarios are given; with at least two, it raises DifferentScenarioConfigs
when they do not all share a config_id, otherwise NonExistingScenarioConfig
when the shared config cannot be resolved, otherwise NonExistingComparator
when a requested data node has no registered comparator, and otherwise
returns the two-level mapping data-node id to comparator-name/output pairs. -/
theorem C7_compare_error_chain (config_store : String → Option ScenarioConfig)
    (read : Nat → String → Int) (scenarios : List Scenario)
    (dnid : Option String) :
    C7Prop config_store read scenarios dnid := by
  constructor
  · cases scenarios with
    | nil => exact ⟨fun _ => by decide, fun _ => rfl⟩
    | cons a tl =>
      cases tl with
      | nil => exact ⟨fun _ => by simp, fun _ => rfl⟩
      | cons b tl2 =>
        unfold scenario_compare
        dsimp only
        split_ifs with hall
        · cases hst : config_store a.config_id with
          | none =>
            exact ⟨fun h => by simp at h,
              fun h => absurd h (by simp only [List.length_cons]; omega)⟩
          | some cfg =>
            cases dnid with
            | none =>
              exact ⟨fun h => by simp at h,
                fun h => absurd h (by simp only [List.length_cons]; omega)⟩
            | some dn =>
              cases hlk : cfg.comparators.lookup dn with
              | none =>
                exact ⟨fun h => by simp [hlk] at h,
                  fun h => absurd h (by simp only [List.length_cons]; omega)⟩
              | some comps =>
                exact ⟨fun h => by simp [hlk] at h,
                  fun h => absurd h (by simp only [List.length_cons]; omega)⟩
        · exact ⟨fun h => by simp at h,
            fun h => absurd h (by simp only [List.length_cons]; omega)⟩
  · intro a b tl hsc
    subst hsc
    refine ⟨?_, ?_⟩
    · intro hnall
      unfold scenario_compare
      dsimp only
      rw [if_pos (fun hall => hnall (fun sc hsc =>
        beq_iff_eq.mp (List.all_eq_true.mp hall sc hsc)))]
    · intro hall
      have hcond :
          ¬¬((a :: b :: tl).all fun sc => a.config_id == sc.config_id)
            = true :=
        not_not_intro (List.all_eq_true.mpr
          (fun sc hsc => beq_iff_eq.mpr (hall sc hsc)))
      refine ⟨?_, ?_⟩
      · intro hst
        unfold scenario_compare
        dsimp only
        rw [if_neg hcond, hst]
      · intro cfg hst
        refine ⟨?_, ?_, ?_⟩
        · intro dn hdn hlk
          subst hdn
          unfold scenario_compare
          dsimp only
          rw [if_neg hcond, hst]
          dsimp only
          rw [hlk]
        · intro dn comps hdn hlk
          subst hdn
          unfold scenario_compare
          dsimp only
          rw [if_neg hcond, hst]
          dsimp only
          rw [hlk]
          rfl
        · intro hdn
          subst hdn
          unfold scenario_compare
          dsimp only
          rw [if_neg hcond, hst]

/-- A concrete environment for the C7 witness. -/
def c7_store : String → Option ScenarioConfig := fun n =>
  if n = "cfg" then some ⟨"cfg", [], none, [], [("d", [⟨"max", fun _ => 0⟩])]⟩
  else none

/-- Concrete scenarios sharing a config for the C7 witness. -/
def c7_scenarios : List Scenario :=
  [⟨0, "cfg", [], [], ⟨⟨2021, 1, 1⟩, 0⟩, false, none, [], []⟩,
   ⟨1, "cfg", [], [], ⟨⟨2021, 1, 1⟩, 0⟩, false, none, [], []⟩]

/-- Witness for C7 at a concrete environment. -/
theorem C7_compare_error_chain_wit :
    C7Prop c7_store (fun _ _ => 0) c7_scenarios none :=
  C7_compare_error_chain c7_store (fun _ _ => 0) c7_scenarios none

lemma eq_of_mem_id_cycle {l : List Cycle} {a b : Cycle}
    (hpw : l.Pairwise (fun x y => x.id ≠ y.id)) (ha : a ∈ l) (hb : b ∈ l)
    (hid : a.id = b.id) : a = b := by
  induction l with
  | nil => cases ha
  | cons c t ih =>
    rw [List.pairwise_cons] at hpw
    rcases List.mem_cons.mp ha with rfl | ha' <;>
      rcases List.mem_cons.mp hb with rfl | hb'
    · rfl
    · exact absurd hid (hpw.1 b hb')
    · exact absurd hid.symm (hpw.1 a ha')
    · exact ih hpw.2 ha' hb'

lemma goc_found {s : State} {f : Frequency} {t : DateTime} {c : Cycle}
    {rest : List Cycle}
    (hm : get_cycles_by_frequency_and_start_date s f
      (get_start_date_of_cycle f t) = c :: rest) :
    cycle_get_or_create s f t = (c, s) := by
  unfold cycle_get_or_create
  dsimp only
  rw [hm]

lemma goc_created {s : State} {f : Frequency} {t : DateTime}
    (hm : get_cycles_by_frequency_and_start_date s f
      (get_start_date_of_cycle f t) = []) :
    cycle_get_or_create s f t
      = (⟨s.next_id, f, t, get_start_date_of_cycle f t,
          get_end_date_of_cycle f (get_start_date_of_cycle f t)⟩,
        { s with
          cycles := s.cycles ++ [⟨s.next_id, f, t, get_start_date_of_cycle f t,
            get_end_date_of_cycle f (get_start_date_of_cycle f t)⟩],
          next_id := s.next_id + 1 }) := by
  unfold cycle_get_or_create cycle_create
  dsimp only
  rw [hm]

lemma mem_of_get_cycles {s : State} {f : Frequency} {st : DateTime} {c : Cycle}
    {rest : List Cycle}
    (hm : get_cycles_by_frequency_and_start_date s f st = c :: rest) :
    c ∈ s.cycles ∧ c.frequency = f ∧ c.start_date = st := by
  have hc : c ∈ get_cycles_by_frequency_and_start_date s f st := by
    rw [hm]; exact List.mem_cons_self c rest
  unfold get_cycles_by_frequency_and_start_date at hc
  have h2 := List.mem_filter.mp hc
  refine ⟨h2.1, ?_, ?_⟩
  · have := h2.2
    rw [Bool.and_eq_true] at this
    simpa using this.1
  · have := h2.2
    rw [Bool.and_eq_true] at this
    simpa using this.2

/-- The full conclusion of claim C9: same-bucket get-or-create is idempotent
(same cycle, no new state), different buckets yield different identities. -/
def C9Prop (s : State) (f : Frequency) (t1 t2 : DateTime) : Prop :=
  (get_start_date_of_cycle f t1 = get_start_date_of_cycle f t2 →
    cycle_get_or_create (cycle_get_or_create s f t1).2 f t2
      = ((cycle_get_or_create s f t1).1, (cycle_get_or_create s f t1).2))
  ∧ (get_start_date_of_cycle f t1 ≠ get_start_date_of_cycle f t2 →
    (cycle_get_or_create (cycle_get_or_create s f t1).2 f t2).1.id
      ≠ (cycle_get_or_create s f t1).1.id)

/-- C9: for instants T1, T2 in the same bucket of frequency F, getOrCreate(F,
T1) followed by getOrCreate(F, T2) returns the same cycle identity and creates
no duplicate cycle (the state is unchanged by the second call); for instants
in different buckets the two calls return cycles with different identities. -/
theorem C9_get_or_create_identity (s : State) (f : Frequency)
    (t1 t2 : DateTime) (hwf : WF s) : C9Prop s f t1 t2 := by
  obtain ⟨-, hpwc, -, hcyc, -⟩ := hwf
  unfold C9Prop
  cases hm1 : get_cycles_by_frequency_and_start_date s f
      (get_start_date_of_cycle f t1) with
  | cons c1 rest1 =>
    obtain ⟨hc1mem, hc1f, hc1st⟩ := mem_of_get_cycles hm1
    rw [goc_found hm1]
    dsimp only
    constructor
    · intro hsame
      have hm2 : get_cycles_by_frequency_and_start_date s f
          (get_start_date_of_cycle f t2) = c1 :: rest1 := by
        rw [← hsame]; exact hm1
      rw [goc_found hm2]
    · intro hdiff
      cases hm2 : get_cycles_by_frequency_and_start_date s f
          (get_start_date_of_cycle f t2) with
      | nil =>
        rw [goc_created hm2]
        dsimp only
        have := hcyc c1 hc1mem
        omega
      | cons c2 rest2 =>
        obtain ⟨hc2mem, hc2f, hc2st⟩ := mem_of_get_cycles hm2
        rw [goc_found hm2]
        dsimp only
        intro hid
        have heq : c2 = c1 := eq_of_mem_id_cycle hpwc hc2mem hc1mem hid
        exact hdiff (by rw [← hc1st, ← hc2st, heq])
  | nil =>
    rw [goc_created hm1]
    dsimp only
    set c1 : Cycle := ⟨s.next_id, f, t1, get_start_date_of_cycle f t1,
      get_end_date_of_cycle f (get_start_date_of_cycle f t1)⟩ with hc1
    set s1 : State :=
      { s with cycles := s.cycles ++ [c1], next_id := s.next_id + 1 } with hs1
    constructor
    · intro hsame
      have hm2 : get_cycles_by_frequency_and_start_date s1 f
          (get_start_date_of_cycle f t2) = [c1] := by
        rw [hs1]
        unfold get_cycles_by_frequency_and_start_date at hm1 ⊢
        dsimp only
        rw [← hsame, List.filter_append, hm1]
        simp [hc1]
      rw [goc_found hm2]
    · intro hdiff
      cases hm2 : get_cycles_by_frequency_and_start_date s1 f
          (get_start_date_of_cycle f t2) with
      | nil =>
        rw [goc_created hm2]
        dsimp only
        omega
      | cons c2 rest2 =>
        obtain ⟨hc2mem, hc2f, hc2st⟩ := mem_of_get_cycles hm2
        rw [goc_found hm2]
        dsimp only
        rw [hs1] at hc2mem
        dsimp only at hc2mem
        rcases List.mem_append.mp hc2mem with hin | hun
        · have hb := hcyc c2 hin
          show c2.id ≠ s.next_id
          omega
        · have hcc : c2 = c1 := by simpa using hun
          exfalso
          apply hdiff
          rw [← hc2st, hcc, hc1]

/-- Witness for C9 at the empty state with two daily instants. -/
theorem C9_get_or_create_identity_wit :
    WF init_state
    ∧ C9Prop init_state .DAILY ⟨⟨2021, 1, 2⟩, 0⟩ ⟨⟨2021, 1, 3⟩, 0⟩ :=
  ⟨⟨List.Pairwise.nil, List.Pairwise.nil, by simp [init_state],
      by simp [init_state], by simp [init_state]⟩,
    C9_get_or_create_identity init_state .DAILY ⟨⟨2021, 1, 2⟩, 0⟩
      ⟨⟨2021, 1, 3⟩, 0⟩
      ⟨List.Pairwise.nil, List.Pairwise.nil, by simp [init_state],
        by simp [init_state], by simp [init_state]⟩⟩

end TaipyCore
